import Mathlib

/-!
Verification of the aged-receivables aging/reconciliation engine.

Shallow embedding of:
* `src/helper.py` — `calculate_aging_bucket`, `generate_bucket_names`,
  `process_financial_item`;
* `src/service.py` — the Set-A past-date decision table, the Set-C
  "early paid" filter, and the report-date validation prefix of
  `generate_aged_receivables_report`;
* `src/export.py` — identifier usage in `generate_system_comments`.

Python `datetime.date` values are modelled by a `Date` structure carrying
year/month/day; `date` subtraction (`.days`) is modelled through the
proleptic-Gregorian ordinal (`Date.toOrdinal`, CPython's `date.toordinal`),
and `date` comparison through lexicographic comparison of the triple
(CPython's `date._cmp`).  Python floats are modelled by `ℚ`.
-/

/-- Gregorian leap-year test, as CPython `calendar.isleap`. -/
def isLeap (y : Nat) : Bool :=
  y % 4 == 0 && (y % 100 != 0 || y % 400 == 0)

/-- Number of days in month `m` of year `y` (CPython `_days_in_month`). -/
def daysInMonth (y m : Nat) : Nat :=
  if m = 2 then (if isLeap y then 29 else 28)
  else if m = 4 ∨ m = 6 ∨ m = 9 ∨ m = 11 then 30
  else 31

/-- Days in the year before the first day of month `m` (CPython `_days_before_month`). -/
def daysBeforeMonth (y : Nat) : Nat → Nat
  | 0 => 0
  | 1 => 0
  | m + 1 => daysBeforeMonth y m + daysInMonth y m

/-- Days before January 1 of year `y` (CPython `_days_before_year`). -/
def daysBeforeYear (y : Nat) : Nat :=
  365 * (y - 1) + (y - 1) / 4 - (y - 1) / 100 + (y - 1) / 400

/-- A calendar date as held by Python `datetime.date`. -/
structure Date where
  year : Nat
  month : Nat
  day : Nat
deriving DecidableEq, Repr

/-- Proleptic Gregorian ordinal of a date (CPython `date.toordinal`):
January 1 of year 1 is day 1. -/
def Date.toOrdinal (d : Date) : Nat :=
  daysBeforeYear d.year + daysBeforeMonth d.year d.month + d.day

/-- The date triples that `datetime.date` can actually hold. -/
def Date.Valid (d : Date) : Prop :=
  1 ≤ d.year ∧ 1 ≤ d.month ∧ d.month ≤ 12 ∧ 1 ≤ d.day ∧ d.day ≤ daysInMonth d.year d.month

instance (d : Date) : Decidable d.Valid := by
  unfold Date.Valid; infer_instance

/-- Python `date.__lt__`: lexicographic comparison of (year, month, day). -/
def Date.blt (a b : Date) : Bool :=
  decide (a.year < b.year) ||
    (a.year == b.year &&
      (decide (a.month < b.month) || (a.month == b.month && decide (a.day < b.day))))

/-- Python `date.__le__`. -/
def Date.ble (a b : Date) : Bool :=
  Date.blt a b || a == b

/-! ## BucketScheme: `calculate_aging_bucket` and `generate_bucket_names` (src/helper.py) -/

/-- Model of Python `str.lower` for the ASCII strings the program compares. -/
def pyLower (s : String) : String :=
  String.mk (s.data.map Char.toLower)

/-- Interior bucket label `f"{i} {period_type}{'s' if i > 1 else ''}"`. -/
def interiorBucketName (i : Nat) (period_type : String) : String :=
  i.repr ++ " " ++ period_type ++ (if i > 1 then "s" else "")

/-- A Python `for i in ...: if p(i): return f(i)` loop followed by `return dflt`. -/
def firstMatch (p : Nat → Bool) (f : Nat → String) (dflt : String) : List Nat → String
  | [] => dflt
  | i :: rest => if p i then f i else firstMatch p f dflt rest

/-- `helper.calculate_aging_bucket` (src/helper.py lines 7-63), literally:
`days` is the Python `(report_date - due_date).days`; the month branch walks
`range(2, periods)`, the day/week branch walks `range(1, periods + 1)`. -/
def calculate_aging_bucket (report_date due_date : Date) (periods : Nat)
    (period_of : Nat) (period_type : String) (show_current : Bool) : String :=
  let days : Int := (report_date.toOrdinal : Int) - (due_date.toOrdinal : Int)
  if days < 0 then "Current"
  else if pyLower period_type == "month" then
    let months_diff0 : Int :=
      ((report_date.year : Int) - (due_date.year : Int)) * 12 +
        ((report_date.month : Int) - (due_date.month : Int))
    let months_diff : Int :=
      if report_date.day < due_date.day then months_diff0 - 1 else months_diff0
    if months_diff ≤ 0 then "< 1 " ++ period_type
    else if months_diff == 1 then "1 " ++ period_type
    else
      firstMatch (fun i => months_diff == (i : Int))
        (fun i => interiorBucketName i period_type) "Older"
        (List.range' 2 (periods - 2))
  else
    let days_per_period : Nat :=
      if pyLower period_type == "day" then period_of
      else if pyLower period_type == "week" then period_of * 7
      else period_of * 30
    firstMatch (fun i => decide (days ≤ (i : Int) * (days_per_period : Int)))
      (fun i => if i == 1 then "< 1 " ++ period_type else interiorBucketName (i - 1) period_type)
      "Older" (List.range' 1 periods)

/-- `helper.generate_bucket_names` (src/helper.py lines 66-87): `Current`,
then one name per `i in range(1, periods + 1)`, then `Older`. -/
def generate_bucket_names (periods : Nat) (period_type : String) (show_current : Bool) :
    List String :=
  ["Current"] ++
    (List.range' 1 periods).map
      (fun i => if i == 1 then "< 1 " ++ period_type else interiorBucketName (i - 1) period_type) ++
    ["Older"]

/-! ## Claims C1, C4, C7 about the bucket scheme -/

/-- The calendar month difference computed by the month branch of
`calculate_aging_bucket`: `(ry - dy) * 12 + (rm - dm)`, decremented by 1
when `report_date.day < due_date.day`. -/
def months_diff_py (report_date due_date : Date) : Int :=
  ((report_date.year : Int) - (due_date.year : Int)) * 12 +
    ((report_date.month : Int) - (due_date.month : Int)) -
    (if report_date.day < due_date.day then 1 else 0)

/-! ## ItemNormalizer / LedgerAggregator: `process_financial_item` (src/helper.py 90-202)

The items reaching `process_financial_item` are the dict records built by
`service._get_report_data` (`filter_invoices` / `filter_credit_notes` /
`filter_overpayments`); an `Item` carries the fields those dicts can hold.
Since the function also probes `hasattr(item, ...)` (which is `False` for a
plain dict key), attribute presence is modelled separately from field
presence by the `hasattr_*` flags. -/

structure Item where
  invoice_number : Option String := none
  invoice_id : Option String := none
  credit_note_number : Option String := none
  credit_note_id : Option String := none
  bank_transaction_id : Option String := none
  overpayment_id : Option String := none
  status : Option String := none
  contact : Option String := none
  amount_due : Option ℚ := none
  remaining_credit : Option ℚ := none
  total : Option ℚ := none
  date : Option Date := none
  due_date : Option Date := none
  DueDate : Option Date := none
  allocations : List Date := []
  hasattr_allocations : Bool := false
  hasattr_due_date : Bool := false
  hasattr_DueDate : Bool := false
deriving DecidableEq, Repr

/-- Python truthiness of an optional string (`None` and `""` are falsy). -/
def pyTruthyS (o : Option String) : Bool :=
  match o with
  | none => false
  | some s => !(s == "")

/-- `float(item.get(f, 0))` for the numeric field names the program passes. -/
def Item.getAmount (item : Item) (f : String) : ℚ :=
  if f == "amount_due" then (item.amount_due).getD 0
  else if f == "remaining_credit" then (item.remaining_credit).getD 0
  else if f == "total" then (item.total).getD 0
  else 0

/-- `item.get(f, None)` for the date field names the program passes. -/
def Item.getDateField (item : Item) (f : String) : Option Date :=
  if f == "date" then item.date
  else if f == "due_date" then item.due_date
  else if f == "DueDate" then item.DueDate
  else none

/-- Reference-date selection of `process_financial_item`
(src/helper.py lines 142-164), written as the source's sequence of
reassignments of `item_date`. -/
def select_reference_date (item : Item) (item_type date_field : String)
    (report_date : Date) (date_fallback : Option Date) : Date :=
  let item_date := item.getDateField date_field
  let item_date :=
    if item.hasattr_allocations && !item.allocations.isEmpty then
      (if !item.allocations.isEmpty && item.date.isSome then item.date else item_date)
    else if item_type == "credit_note" then
      (if item.hasattr_due_date && item.due_date.isSome then item.due_date
       else if item.hasattr_DueDate && item.DueDate.isSome then item.DueDate
       else item_date)
    else item_date
  match item_date with
  | some d => d
  | none => date_fallback.getD report_date

/-- Identifier extraction of `process_financial_item`
(src/helper.py lines 124-140): `(item_number, item_id, status)` per
`item_type`; any other type falls to the `("Unknown", None, None)` default. -/
def extractIds (item_type : String) (item : Item) :
    Option String × Option String × Option String :=
  if item_type == "invoice" then (item.invoice_number, item.invoice_id, item.status)
  else if item_type == "credit_note" then
    (item.credit_note_number, item.credit_note_id, item.status)
  else if item_type == "bank_transaction" then
    (some ((item.bank_transaction_id.getD "Unknown").take 8), item.bank_transaction_id,
      item.status)
  else (some "Unknown", none, none)

structure Detail where
  item_number : Option String
  item_id : Option String
  amount : ℚ
  is_negative : Bool
  status : Option String
  item_type : String
deriving DecidableEq, Repr

structure Entry where
  business_unit : String
  company : String
  contact : String
  amounts : List (String × ℚ)
  details : List (String × List Detail)
deriving DecidableEq, Repr

abbrev Report := List (String × Entry)

/-- First-match association-list lookup (a Python dict read). -/
def alookup {α : Type} (key : String) : List (String × α) → Option α
  | [] => none
  | (k, v) :: rest => if k == key then some v else alookup key rest

/-- Replace the value at `key`, or append it (a Python dict write:
insertion order preserved). -/
def aset {α : Type} (key : String) (v : α) : List (String × α) → List (String × α)
  | [] => [(key, v)]
  | (k, w) :: rest => if k == key then (k, v) :: rest else (k, w) :: aset key v rest

/-- `entry[bucket] += v`; `none` models the `KeyError` Python raises when
`bucket` is not a key of the entry. -/
def updateAmount (bucket : String) (v : ℚ) : List (String × ℚ) → Option (List (String × ℚ))
  | [] => none
  | (b, a) :: rest =>
    if b == bucket then some ((b, a + v) :: rest)
    else (updateAmount bucket v rest).map (fun r => (b, a) :: r)

/-- `entry["invoice_details"][bucket].append(d)`; `none` models the `KeyError`. -/
def appendDetail (bucket : String) (d : Detail) :
    List (String × List Detail) → Option (List (String × List Detail))
  | [] => none
  | (b, l) :: rest =>
    if b == bucket then some ((b, l ++ [d]) :: rest)
    else (appendDetail bucket d rest).map (fun r => (b, l) :: r)

/-- Python `x or dflt` on an optional string. -/
def pyOrS (o : Option String) (dflt : String) : String :=
  match o with
  | none => dflt
  | some s => if s == "" then dflt else s

/-- The keyword arguments of a `process_financial_item` call. -/
structure ProcParams where
  report_date : Date
  periods : Nat
  period_of : Nat
  period_type : String
  bucket_names : List String
  amount_field : String
  date_field : String
  is_negative : Bool
  date_fallback : Option Date
  connection_name : Option String
  business_type : Option String
  item_type : String
  show_current : Bool
deriving DecidableEq, Repr

/-- The item-detail dict stored for system comments
(src/helper.py lines 192-199). -/
def mkDetail (item : Item) (ps : ProcParams) : Detail :=
  let ids := extractIds ps.item_type item
  { item_number := ids.1
    item_id := ids.2.1
    amount := if ps.is_negative then -(item.getAmount ps.amount_field)
      else item.getAmount ps.amount_field
    is_negative := ps.is_negative
    status := ids.2.2
    item_type := ps.item_type }

/-- `amount = float(item.get(amount_field, 0))` (src/helper.py line 115). -/
def callAmount (item : Item) (ps : ProcParams) : ℚ :=
  item.getAmount ps.amount_field

/-- The early return `amount <= 0 and item_type != "bank_transaction"`
(src/helper.py line 118). -/
def callSkips (item : Item) (ps : ProcParams) : Prop :=
  callAmount item ps ≤ 0 ∧ ps.item_type ≠ "bank_transaction"

instance (item : Item) (ps : ProcParams) : Decidable (callSkips item ps) := by
  unfold callSkips
  infer_instance

/-- The report key `f"{business_type}|{connection_name}|{contact_name}"`,
or the contact name alone when either part is falsy
(src/helper.py lines 168-172). -/
def callKey (item : Item) (ps : ProcParams) : String :=
  if pyTruthyS ps.connection_name && pyTruthyS ps.business_type then
    pyOrS ps.business_type "" ++ "|" ++ pyOrS ps.connection_name "" ++ "|" ++
      ((item.contact).getD "Unknown Contact")
  else (item.contact).getD "Unknown Contact"

/-- The aging bucket of the item's reference date (src/helper.py line 167). -/
def callBucket (item : Item) (ps : ProcParams) : String :=
  calculate_aging_bucket ps.report_date
    (select_reference_date item ps.item_type ps.date_field ps.report_date ps.date_fallback)
    ps.periods ps.period_of ps.period_type ps.show_current

/-- The signed contribution added to the bucket (src/helper.py lines 184-188). -/
def callSigned (item : Item) (ps : ProcParams) : ℚ :=
  if ps.is_negative then -(callAmount item ps) else callAmount item ps

/-- The item details appended for the bucket: one entry when `item_number`
is truthy, none otherwise (src/helper.py lines 190-200). -/
def callDetails (item : Item) (ps : ProcParams) : List Detail :=
  if pyTruthyS (extractIds ps.item_type item).1 then [mkDetail item ps] else []

/-- `helper.process_financial_item` (src/helper.py lines 90-202).  Returns
`none` when the Python code would raise (`KeyError` on a bucket outside the
entry's `bucket_names` keys), otherwise the updated report dict. -/
def process_financial_item (item : Item) (ps : ProcParams) (report : Report) :
    Option Report :=
  if callSkips item ps then some report
  else
    let bucket := callBucket item ps
    let key := callKey item ps
    let entry := match alookup key report with
      | some e => e
      | none =>
        { business_unit := pyOrS ps.business_type "Unknown"
          company := pyOrS ps.connection_name "Unknown"
          contact := (item.contact).getD "Unknown Contact"
          amounts := ps.bucket_names.map (fun n => (n, (0 : ℚ)))
          details := ps.bucket_names.map (fun n => (n, ([] : List Detail))) }
    match updateAmount bucket (callSigned item ps) entry.amounts with
    | none => none
    | some amounts2 =>
      if pyTruthyS (extractIds ps.item_type item).1 then
        match appendDetail bucket (mkDetail item ps) entry.details with
        | none => none
        | some details2 =>
          some (aset key { entry with amounts := amounts2, details := details2 } report)
      else some (aset key { entry with amounts := amounts2 } report)

/-- Signed bucket total of one ledger entry (`report[key][bucket]`). -/
def amountAt (r : Report) (key bucket : String) : Option ℚ :=
  (alookup key r).bind (fun e => alookup bucket e.amounts)

/-- Per-bucket item list of one ledger entry
(`report[key]["invoice_details"][bucket]`). -/
def detailListAt (r : Report) (key bucket : String) : Option (List Detail) :=
  (alookup key r).bind (fun e => alookup bucket e.details)

/-! ## Claims C5 and C6 about the normalizer -/

/-- Reference-date selection as §4.2 of the spec words it, as a priority
chain: (a) if the item has allocations (a non-empty `allocations` attribute)
and a `date` field, use that date; (b) for credit notes without allocations,
use the `due_date` attribute, then the alternate `DueDate` attribute; (c)
otherwise the record's own date field; (d) if still absent, the
caller-supplied fallback date, else the report date. -/
def reference_date_spec (item : Item) (item_type date_field : String)
    (report_date : Date) (date_fallback : Option Date) : Date :=
  let own : Date := match item.getDateField date_field with
    | some d => d
    | none => date_fallback.getD report_date
  if (item.hasattr_allocations && !item.allocations.isEmpty) && item.date.isSome then
    item.date.getD report_date
  else if item_type == "credit_note" &&
      !(item.hasattr_allocations && !item.allocations.isEmpty) then
    if item.hasattr_due_date && item.due_date.isSome then item.due_date.getD report_date
    else if item.hasattr_DueDate && item.DueDate.isSome then item.DueDate.getD report_date
    else own
  else own

/-- A concrete overpayment record as `service._get_report_data` builds it
(an `overpayment_id`, a `remaining_credit`, a `date`, a `status`, a
`contact`). -/
def c6_overpayment : Item :=
  { overpayment_id := some "OP-123"
    remaining_credit := some 40
    date := some ⟨2025, 9, 15⟩
    status := some "AUTHORISED"
    contact := some "Acme" }

/-- The `process_financial_item` keyword arguments used by the service for
overpayments (src/service.py lines 1350-1368). -/
def c6_params : ProcParams :=
  { report_date := ⟨2025, 8, 31⟩
    periods := 4
    period_of := 1
    period_type := "Month"
    bucket_names := generate_bucket_names 4 "Month" true
    amount_field := "remaining_credit"
    date_field := "date"
    is_negative := true
    date_fallback := some ⟨2025, 8, 31⟩
    connection_name := some "Tenant A"
    business_type := some "Ops"
    item_type := "overpayment"
    show_current := true }

/-! ## PointInTimeReconciler: Set-A decision table and Set-C early-paid filter
(src/service.py `_get_unpaid_invoices`, lines 441-852)

Payment/issue/due dates already parsed from Xero's `/Date(...)` encodings are
modelled as `Option Date` (`none` = absent or unparseable, which the source
skips with `continue` / treats as falsy). -/

structure Payment where
  date : Option Date
  amount : ℚ
deriving DecidableEq, Repr

/-- A raw Xero invoice as `_get_unpaid_invoices` reads it (`invoice.type`,
`invoice.date`, `invoice.due_date`, `invoice.fully_paid_on_date`,
`invoice.updated_date_utc`, amounts, payments, credit-note dates). -/
structure XeroInvoice where
  invoice_type : String
  status : Option String
  date : Option Date
  due_date : Option Date
  fully_paid_on_date : Option Date
  updated_date_utc : Option Date
  amount_due : ℚ
  amount_paid : ℚ
  total : ℚ
  payments : List Payment
  credit_notes : List (Option Date)
deriving DecidableEq, Repr

/-- Python `x and x <= d` on an optional date. -/
def optSomeLe (o : Option Date) (d : Date) : Bool :=
  match o with
  | some x => Date.ble x d
  | none => false

/-- Python `x and x > d` on an optional date. -/
def optSomeGt (o : Option Date) (d : Date) : Bool :=
  match o with
  | some x => Date.blt d x
  | none => false

/-- Python `x and x >= d` on an optional date. -/
def optSomeGe (o : Option Date) (d : Date) : Bool :=
  match o with
  | some x => Date.ble d x
  | none => false

/-- The latest parseable payment date (src/service.py lines 484-516). -/
def latestPaymentDate (payments : List Payment) : Option Date :=
  payments.foldl (fun acc p =>
    match p.date with
    | none => acc
    | some d =>
      match acc with
      | none => some d
      | some l => if Date.blt l d then some d else acc) none

/-- Payment-date resolution for the past-date decision table
(src/service.py lines 462-528): `FullyPaidOnDate`, else latest payment
record date, else (if `amount_paid > 0`) `updated_date_utc`, else (if
evidently fully paid and issued on/before the report date) the issue date. -/
def resolvePaymentDate (inv : XeroInvoice) (report_date : Date) : Option Date :=
  let pd := inv.fully_paid_on_date
  let pd := if pd.isNone && !inv.payments.isEmpty then
      (match latestPaymentDate inv.payments with
       | some l => some l
       | none => pd)
    else pd
  let pd := if decide (0 < inv.amount_paid) && pd.isNone then
      (match inv.updated_date_utc with
       | some u => some u
       | none => pd)
    else pd
  if decide (0 < inv.amount_paid) && decide (inv.amount_due = 0) && pd.isNone &&
      optSomeLe inv.date report_date then
    inv.date
  else pd

/-- The Set-A past/present-date decision table
(src/service.py lines 448-693): given the loop guard
(`invoice.type == "ACCREC"` and issue date present and on/before the report
date), evaluate scenarios 1-10 top to bottom; `some (is_negative,
report_amount)` when the invoice is included, `none` when excluded. -/
def setA_decide (inv : XeroInvoice) (report_date : Date) : Option (Bool × ℚ) :=
  if inv.invoice_type == "ACCREC" && optSomeLe inv.date report_date then
    let issue_date := inv.date
    let due_date := inv.due_date
    let payment_date := resolvePaymentDate inv report_date
    let amount_due := inv.amount_due
    let amount_paid := inv.amount_paid
    let adjusted_total_amount := inv.total
    let adjusted_amount_due := inv.amount_due
    -- Scenario 1 (with nested 1a/1b)
    if optSomeLe issue_date report_date && optSomeLe payment_date report_date &&
        optSomeGt due_date report_date then
      (if optSomeLe issue_date report_date && optSomeLe payment_date report_date &&
          decide (0 < amount_due) then
        some (false, adjusted_amount_due)
      else none)
    -- Scenario 2
    else if optSomeLe issue_date report_date &&
        (payment_date.isSome && optSomeLe payment_date report_date) &&
        optSomeLe due_date report_date && decide (amount_due = 0) then
      none
    -- Scenario 3
    else if optSomeLe issue_date report_date &&
        (payment_date.isNone || optSomeGt payment_date report_date) &&
        optSomeGt due_date report_date then
      let credit_note_after_report := inv.credit_notes.any (fun cn =>
        match cn with
        | some cnd => Date.blt report_date cnd
        | none => false)
      some (false,
        if credit_note_after_report then adjusted_total_amount
        else if 0 < adjusted_amount_due then adjusted_amount_due
        else adjusted_total_amount)
    -- Scenario 4
    else if optSomeGt issue_date report_date && optSomeLe payment_date report_date &&
        optSomeGe due_date report_date then
      some (true, adjusted_total_amount)
    -- Scenario 5
    else if optSomeLe issue_date report_date && optSomeLe payment_date report_date &&
        decide (amount_due = 0) then
      none
    -- Scenario 6
    else if optSomeLe issue_date report_date && optSomeGt payment_date report_date then
      let payments_after_report : ℚ :=
        if !inv.payments.isEmpty then
          (inv.payments.foldl (fun acc p =>
            match p.date with
            | some pd => if Date.blt report_date pd then acc + p.amount else acc
            | none => acc) 0) + amount_due
        else 0
      some (false,
        if 0 < payments_after_report then payments_after_report
        else if amount_due = 0 then adjusted_total_amount
        else adjusted_amount_due)
    -- Scenario 7
    else if optSomeLe issue_date report_date && optSomeLe due_date report_date &&
        decide (0 < amount_paid) && decide (0 < amount_due) then
      some (false, adjusted_amount_due)
    -- Scenario 8
    else if optSomeLe issue_date report_date &&
        (payment_date.isNone || optSomeGt payment_date report_date) then
      some (false,
        if 0 < adjusted_amount_due then adjusted_amount_due else adjusted_total_amount)
    -- Scenario 9
    else if optSomeLe issue_date report_date &&
        (match payment_date with
         | some pd => pd == report_date
         | none => false) then
      none
    -- Scenario 10
    else if optSomeLe issue_date report_date && optSomeLe payment_date report_date then
      none
    else none
  else none

/-- The Set-C "early paid" filter (src/service.py lines 728-852) for one
invoice: `some (report_amount, is_negative)` when the invoice is appended
(is_negative is always `True` there), `none` when skipped.  The unbound
`has_payments_before_report_date` of the empty-payments corner (a latent
`NameError` in the source, reachable only for an `AUTHORISED` invoice with
`amount_paid > 0` and no payment records) is modelled as `False`. -/
def earlyPaidProcess (inv : XeroInvoice) (report_date : Date) : Option (ℚ × Bool) :=
  if inv.invoice_type == "ACCREC" then
    let issue_date := inv.date
    if !optSomeGt issue_date report_date then none
    else
      let payment_date := inv.fully_paid_on_date
      let total_paid_up_to_report_date : ℚ :=
        inv.payments.foldl (fun acc p =>
          match p.date with
          | some pd => if Date.ble pd report_date then acc + p.amount else acc
          | none => acc) 0
      let has_payments_before_report_date : Bool :=
        !inv.payments.isEmpty && inv.payments.any (fun p =>
          match p.date with
          | some pd => Date.ble pd report_date
          | none => false)
      let payment_date := if has_payments_before_report_date then some report_date
        else payment_date
      let due_date := inv.due_date
      let total_amount := inv.total
      let condition1 := optSomeGt issue_date report_date &&
        optSomeLe payment_date report_date && optSomeGe due_date report_date
      let condition2 := (inv.status.getD "") == "AUTHORISED" &&
        decide (0 < inv.amount_paid) && optSomeGt issue_date report_date &&
        optSomeGe due_date report_date && has_payments_before_report_date
      if condition1 || condition2 then
        if optSomeGt payment_date report_date then none
        else
          some ((if has_payments_before_report_date then total_paid_up_to_report_date
            else total_amount), true)
      else none
  else none

/-! ## Claims C2, C3, C10 about the reconciler -/

/-- The end-to-end example invoice of the spec: issued `2025-09-10`, due
`2025-09-25`, a single payment of `500.00` dated `2025-08-20`. -/
def c2_invoice : XeroInvoice :=
  { invoice_type := "ACCREC"
    status := some "PAID"
    date := some ⟨2025, 9, 10⟩
    due_date := some ⟨2025, 9, 25⟩
    fully_paid_on_date := none
    updated_date_utc := none
    amount_due := 0
    amount_paid := 500
    total := 500
    payments := [⟨some ⟨2025, 8, 20⟩, 500⟩]
    credit_notes := [] }

/-- A concrete rule-7 invoice: issued and due before the report date,
half-paid, with no resolvable payment date. -/
def c3_invoice : XeroInvoice :=
  { invoice_type := "ACCREC"
    status := some "AUTHORISED"
    date := some ⟨2025, 6, 1⟩
    due_date := some ⟨2025, 6, 15⟩
    fully_paid_on_date := none
    updated_date_utc := none
    amount_due := 50
    amount_paid := 50
    total := 100
    payments := []
    credit_notes := [] }

/-! ## Claim C9: report-date validation of `generate_aged_receivables_report`
(src/service.py lines 1101-1109, 1370-1387) -/

/-- Decimal value of a digit string. -/
def digitsToNat (cs : List Char) : Nat :=
  cs.foldl (fun acc c => acc * 10 + (c.toNat - 48)) 0

/-- Split a character list on `'-'`. -/
def splitDash : List Char → List (List Char)
  | [] => [[]]
  | c :: rest =>
    match splitDash rest with
    | [] => [[]]
    | g :: gs => if c == '-' then [] :: g :: gs else (c :: g) :: gs

/-- `datetime.strptime(s, "%Y-%m-%d").date()`: `%Y` is exactly four digits,
`%m` and `%d` one or two digits; the month must be 1-12 and the day must
exist in that month and year (and `MINYEAR = 1`); anything else raises,
modelled as `none`. -/
def parseYMD (s : String) : Option Date :=
  match splitDash s.data with
  | [ys, ms, ds] =>
    if ys.length = 4 ∧ ys.all Char.isDigit ∧
        1 ≤ ms.length ∧ ms.length ≤ 2 ∧ ms.all Char.isDigit ∧
        1 ≤ ds.length ∧ ds.length ≤ 2 ∧ ds.all Char.isDigit then
      let y := digitsToNat ys
      let m := digitsToNat ms
      let d := digitsToNat ds
      if 1 ≤ y ∧ 1 ≤ m ∧ m ≤ 12 ∧ 1 ≤ d ∧ d ≤ daysInMonth y m then some ⟨y, m, d⟩
      else none
    else none
  | _ => none

/-- The per-connection failure record accumulated by
`generate_aged_receivables_report` (src/service.py lines 1377-1384). -/
structure FailureDescriptor where
  connection_id : String
  tenant_name : String
  error : String
deriving DecidableEq, Repr

/-- One connection as the report generator sees it: its identifiers and the
outcome of fetching/normalizing its records (the Source Collaborator may
raise, carried as `Except.error`). -/
structure ConnData where
  connection_id : String
  tenant_name : String
  fetch : Except String (List (Item × ProcParams))

/-- The per-connection loop of `generate_aged_receivables_report`: a fetch
error (or a processing error) becomes a `FailureDescriptor` and the loop
continues with the other connections. -/
def processConnections (conns : List ConnData) (acc : Report × List FailureDescriptor) :
    Report × List FailureDescriptor :=
  match conns with
  | [] => acc
  | c :: rest =>
    match c.fetch with
    | .error e =>
      processConnections rest (acc.1, acc.2 ++ [⟨c.connection_id, c.tenant_name, e⟩])
    | .ok calls =>
      match calls.foldlM (fun r ic => process_financial_item ic.1 ic.2 r) acc.1 with
      | some r' => processConnections rest (r', acc.2)
      | none =>
        processConnections rest (acc.1, acc.2 ++ [⟨c.connection_id, c.tenant_name, "KeyError"⟩])

/-- `generate_aged_receivables_report`, reduced to the behaviour the claims
exercise: parse `report_date` first (HTTP 400 on failure, before touching any
connection), else fold the connections into a report plus failure list. -/
def generate_aged_receivables_report (report_date : Option String) (today : Date)
    (conns : List ConnData) : Except Nat (Report × List FailureDescriptor) :=
  match report_date with
  | some s =>
    match parseYMD s with
    | some _ => .ok (processConnections conns ([], []))
    | none => .error 400
  | none => .ok (processConnections conns ([], []))

/-! ## Claim C8: order-independence of `process_financial_item` aggregation -/

/-- Well-formed report: every entry's bucket maps are keyed exactly by the
configured bucket names. -/
def ReportWF (names : List String) (r : Report) : Prop :=
  ∀ k e, alookup k r = some e →
    e.amounts.map Prod.fst = names ∧ e.details.map Prod.fst = names

/-- The bucket amount an entry holds before a contribution, counting a
not-yet-created entry as freshly zero-initialized. -/
def baseAmount (names : List String) (r : Report) (k b : String) : Option ℚ :=
  match alookup k r with
  | some e => alookup b e.amounts
  | none => if b ∈ names then some 0 else none

/-- The bucket item list an entry holds before a contribution, counting a
not-yet-created entry as freshly initialized to empty lists. -/
def baseDetails (names : List String) (r : Report) (k b : String) : Option (List Detail) :=
  match alookup k r with
  | some e => alookup b e.details
  | none => if b ∈ names then some [] else none

/-- Observational equality of two reports: same entries exist, same signed
bucket totals, and the same multiset of items per bucket (list order free). -/
def ReportEq (r₁ r₂ : Report) : Prop :=
  (∀ k, ((alookup k r₁).isSome = true ↔ (alookup k r₂).isSome = true)) ∧
  (∀ k b, amountAt r₁ k b = amountAt r₂ k b) ∧
  (∀ k b, (detailListAt r₁ k b).map (fun l => (l : Multiset Detail)) =
    (detailListAt r₂ k b).map (fun l => (l : Multiset Detail)))

/-- Observational equality of two optional reports: both runs raised, or
both produced well-formed observationally equal reports. -/
def OptReportEq (names : List String) (o₁ o₂ : Option Report) : Prop :=
  (o₁ = none ∧ o₂ = none) ∨
  ∃ s₁ s₂, o₁ = some s₁ ∧ o₂ = some s₂ ∧ ReportWF names s₁ ∧ ReportWF names s₂ ∧
    ReportEq s₁ s₂

/-- Folding a list of `process_financial_item` calls over a report, raising
(`none`) as soon as one call raises — the per-connection aggregation loop. -/
def processAll : List (Item × ProcParams) → Report → Option Report
  | [], r => some r
  | c :: rest, r => (process_financial_item c.1 c.2 r).bind (processAll rest)

/-- Bucket total after two successful contributions
`(Ka, Ba, va)` then `(Kb, Bb, vb)` applied to `r`, as a closed formula. -/
def twoStepAmt (names : List String) (r : Report) (Ka Ba : String) (va : ℚ)
    (Kb Bb : String) (vb : ℚ) (k bq : String) : Option ℚ :=
  let base1 : Option ℚ :=
    if k = Ka ∧ bq = Ba then (baseAmount names r k bq).map (fun q => q + va)
    else baseAmount names r k bq
  if k = Kb then
    (if bq = Bb then base1.map (fun q => q + vb) else base1)
  else if k = Ka then
    (if bq = Ba then (baseAmount names r k bq).map (fun q => q + va)
     else baseAmount names r k bq)
  else amountAt r k bq

/-- Bucket item list after two successful contributions, as a closed formula. -/
def twoStepDet (names : List String) (r : Report) (Ka Ba : String) (ca : List Detail)
    (Kb Bb : String) (cb : List Detail) (k bq : String) : Option (List Detail) :=
  let base1 : Option (List Detail) :=
    if k = Ka ∧ bq = Ba then (baseDetails names r k bq).map (fun l => l ++ ca)
    else baseDetails names r k bq
  if k = Kb then
    (if bq = Bb then base1.map (fun l => l ++ cb) else base1)
  else if k = Ka then
    (if bq = Ba then (baseDetails names r k bq).map (fun l => l ++ ca)
     else baseDetails names r k bq)
  else detailListAt r k bq

/-- A concrete invoice contribution for exercising the aggregation. -/
def c8_call_a : Item × ProcParams :=
  ({ invoice_number := some "INV-1"
     invoice_id := some "id-1"
     status := some "AUTHORISED"
     contact := some "Acme"
     amount_due := some 100
     due_date := some ⟨2025, 9, 20⟩ },
   { report_date := ⟨2025, 8, 31⟩
     periods := 4
     period_of := 1
     period_type := "Month"
     bucket_names := generate_bucket_names 4 "Month" true
     amount_field := "amount_due"
     date_field := "due_date"
     is_negative := false
     date_fallback := some ⟨2025, 8, 31⟩
     connection_name := some "Tenant A"
     business_type := some "Ops"
     item_type := "invoice"
     show_current := true })

/-- A second concrete invoice contribution for the same contact. -/
def c8_call_b : Item × ProcParams :=
  ({ invoice_number := some "INV-2"
     invoice_id := some "id-2"
     status := some "AUTHORISED"
     contact := some "Acme"
     amount_due := some 50
     due_date := some ⟨2025, 5, 1⟩ },
   { report_date := ⟨2025, 8, 31⟩
     periods := 4
     period_of := 1
     period_type := "Month"
     bucket_names := generate_bucket_names 4 "Month" true
     amount_field := "amount_due"
     date_field := "due_date"
     is_negative := false
     date_fallback := some ⟨2025, 8, 31⟩
     connection_name := some "Tenant A"
     business_type := some "Ops"
     item_type := "invoice"
     show_current := true })

theorem date_blt_or_eq_or_gt (a b : Date) :
    Date.blt a b = true ∨ a = b ∨ Date.blt b a = true := by
  rcases a with ⟨ay, am, ad⟩
  rcases b with ⟨by_, bm, bd⟩
  simp only [Date.blt, Bool.or_eq_true, Bool.and_eq_true, decide_eq_true_eq, beq_iff_eq,
    Date.mk.injEq]
  omega

theorem date_not_blt_of_ble (a b : Date) (h : Date.ble a b = true) :
    Date.blt b a = false := by
  rcases a with ⟨ay, am, ad⟩
  rcases b with ⟨by_, bm, bd⟩
  simp only [Date.ble, Date.blt, Bool.or_eq_true, Bool.and_eq_true, decide_eq_true_eq,
    beq_iff_eq, Date.mk.injEq] at h
  simp only [Date.blt, Bool.or_eq_false_iff, Bool.and_eq_false_iff, decide_eq_false_iff_not,
    not_lt, beq_eq_false_iff_ne, ne_eq]
  omega

theorem daysInMonth_pos (y m : Nat) : 0 < daysInMonth y m := by
  unfold daysInMonth
  split
  · split <;> omega
  · split <;> omega

theorem daysInMonth_le (y m : Nat) : daysInMonth y m ≤ 31 := by
  unfold daysInMonth
  split
  · split <;> omega
  · split <;> omega

theorem daysBeforeMonth_succ (y m : Nat) (hm : 1 ≤ m) :
    daysBeforeMonth y (m + 1) = daysBeforeMonth y m + daysInMonth y m := by
  match m, hm with
  | m + 1, _ => rfl

theorem daysBeforeMonth_mono (y : Nat) {m m' : Nat} (h : m ≤ m') :
    daysBeforeMonth y m ≤ daysBeforeMonth y m' := by
  induction m' with
  | zero => simp_all
  | succ k ih =>
    rcases Nat.lt_or_ge m (k + 1) with hlt | hge
    · have hk : daysBeforeMonth y m ≤ daysBeforeMonth y k := ih (by omega)
      have : daysBeforeMonth y k ≤ daysBeforeMonth y (k + 1) := by
        match k with
        | 0 => simp [daysBeforeMonth]
        | j + 1 =>
          rw [daysBeforeMonth_succ y (j + 1) (by omega)]
          omega
      omega
    · have : m = k + 1 := by omega
      simp [this]

theorem daysBeforeMonth_13 (y : Nat) :
    daysBeforeMonth y 13 = (if isLeap y then 366 else 365) := by
  cases h : isLeap y <;>
    simp [daysBeforeMonth, daysInMonth, h]

theorem daysBeforeMonth_add_le (y m : Nat) (h1 : 1 ≤ m) (h2 : m ≤ 12) :
    daysBeforeMonth y m + daysInMonth y m ≤ (if isLeap y then 366 else 365) := by
  rw [← daysBeforeMonth_13 y, ← daysBeforeMonth_succ y m h1]
  exact daysBeforeMonth_mono y (by omega)

theorem daysBeforeYear_succ (y : Nat) (hy : 1 ≤ y) :
    daysBeforeYear (y + 1) = daysBeforeYear y + (if isLeap y then 366 else 365) := by
  obtain ⟨n, rfl⟩ : ∃ n, y = n + 1 := ⟨y - 1, by omega⟩
  have hiff : isLeap (n + 1) = true ↔
      ((n + 1) % 4 = 0 ∧ ((n + 1) % 100 ≠ 0 ∨ (n + 1) % 400 = 0)) := by
    simp [isLeap]
  unfold daysBeforeYear
  simp only [Nat.add_sub_cancel]
  rw [Nat.succ_div n 4, Nat.succ_div n 100, Nat.succ_div n 400]
  by_cases hL : (n + 1) % 4 = 0 ∧ ((n + 1) % 100 ≠ 0 ∨ (n + 1) % 400 = 0)
  · rw [if_pos (hiff.mpr hL)]
    split_ifs <;> omega
  · rw [if_neg (fun hc => hL (hiff.mp hc))]
    split_ifs <;> omega

theorem daysBeforeYear_mono {y y' : Nat} (h : y ≤ y') :
    daysBeforeYear y ≤ daysBeforeYear y' := by
  induction y' with
  | zero => simp_all
  | succ k ih =>
    rcases Nat.lt_or_ge y (k + 1) with hlt | hge
    · have hk := ih (by omega)
      rcases Nat.eq_zero_or_pos k with hk0 | hkpos
      · subst hk0
        simp only [daysBeforeYear] at *
        omega
      · rw [daysBeforeYear_succ k hkpos]
        split <;> omega
    · have : y = k + 1 := by omega
      simp [this]

theorem toOrdinal_le_year_end (d : Date) (hv : d.Valid) :
    d.toOrdinal ≤ daysBeforeYear (d.year + 1) := by
  obtain ⟨hy, hm1, hm2, hd1, hd2⟩ := hv
  have h1 : daysBeforeMonth d.year d.month + d.day ≤
      daysBeforeMonth d.year d.month + daysInMonth d.year d.month := by omega
  have h2 := daysBeforeMonth_add_le d.year d.month hm1 hm2
  rw [daysBeforeYear_succ d.year hy]
  unfold Date.toOrdinal
  omega

theorem toOrdinal_lt_of_blt (a b : Date) (ha : a.Valid) (hb : b.Valid)
    (h : Date.blt a b = true) : a.toOrdinal < b.toOrdinal := by
  obtain ⟨hay, ham1, ham2, had1, had2⟩ := ha
  obtain ⟨hby, hbm1, hbm2, hbd1, hbd2⟩ := hb
  simp only [Date.blt, Bool.or_eq_true, Bool.and_eq_true, decide_eq_true_eq, beq_iff_eq] at h
  rcases h with hylt | ⟨hyeq, hmlt | ⟨hmeq, hdlt⟩⟩
  · -- strictly earlier year
    have h1 : a.toOrdinal ≤ daysBeforeYear (a.year + 1) :=
      toOrdinal_le_year_end a ⟨hay, ham1, ham2, had1, had2⟩
    have h2 : daysBeforeYear (a.year + 1) ≤ daysBeforeYear b.year :=
      daysBeforeYear_mono (by omega)
    have h3 : daysBeforeYear b.year < b.toOrdinal := by
      unfold Date.toOrdinal
      omega
    omega
  · -- same year, strictly earlier month
    have h1 : daysBeforeMonth a.year a.month + a.day ≤
        daysBeforeMonth a.year a.month + daysInMonth a.year a.month := by omega
    have h2 : daysBeforeMonth a.year (a.month + 1) ≤ daysBeforeMonth a.year b.month := by
      apply daysBeforeMonth_mono
      omega
    rw [← daysBeforeMonth_succ a.year a.month ham1] at h1
    unfold Date.toOrdinal
    rw [← hyeq]
    omega
  · -- same year and month, earlier day
    unfold Date.toOrdinal
    rw [← hyeq, ← hmeq]
    omega

theorem toOrdinal_le_of_ble (a b : Date) (ha : a.Valid) (hb : b.Valid)
    (h : Date.ble a b = true) : a.toOrdinal ≤ b.toOrdinal := by
  simp only [Date.ble, Bool.or_eq_true, beq_iff_eq] at h
  rcases h with h | h
  · exact Nat.le_of_lt (toOrdinal_lt_of_blt a b ha hb h)
  · rw [h]

example : generate_bucket_names 4 "Month" true =
    ["Current", "< 1 Month", "1 Month", "2 Months", "3 Months", "Older"] := by decide

example : calculate_aging_bucket ⟨2025, 8, 15⟩ ⟨2025, 5, 20⟩ 4 1 "Month" true = "2 Months" := by
  decide

example : calculate_aging_bucket ⟨2025, 8, 15⟩ ⟨2025, 9, 1⟩ 4 1 "Month" true = "Current" := by
  decide

example : calculate_aging_bucket ⟨2025, 8, 15⟩ ⟨2025, 7, 10⟩ 1 1 "Month" true = "1 Month" := by
  decide

example : generate_bucket_names 1 "Month" true = ["Current", "< 1 Month", "Older"] := by decide

theorem firstMatch_eq_or_mem (p : Nat → Bool) (f : Nat → String) (d : String) (l : List Nat) :
    firstMatch p f d l = d ∨ ∃ i ∈ l, p i = true ∧ firstMatch p f d l = f i := by
  induction l with
  | nil => left; rfl
  | cons i rest ih =>
    by_cases h : p i = true
    · right
      exact ⟨i, List.mem_cons_self i rest, h, by simp [firstMatch, h]⟩
    · rcases ih with h1 | ⟨j, hj, hpj, hfj⟩
      · left; simp [firstMatch, h, h1]
      · right
        exact ⟨j, List.mem_cons_of_mem i hj, hpj, by simp [firstMatch, h, hfj]⟩

theorem firstMatch_eq_default (p : Nat → Bool) (f : Nat → String) (d : String) (l : List Nat)
    (h : ∀ j ∈ l, p j = false) : firstMatch p f d l = d := by
  induction l with
  | nil => rfl
  | cons i rest ih =>
    have hi := h i (List.mem_cons_self i rest)
    simp only [firstMatch, hi, Bool.false_eq_true, if_false]
    exact ih (fun j hj => h j (List.mem_cons_of_mem i hj))

theorem firstMatch_eq_of_unique (p : Nat → Bool) (f : Nat → String) (d : String) (l : List Nat)
    (i : Nat) (hi : i ∈ l) (hpi : p i = true) (huniq : ∀ j ∈ l, p j = true → j = i) :
    firstMatch p f d l = f i := by
  induction l with
  | nil => cases hi
  | cons a rest ih =>
    by_cases hpa : p a = true
    · have ha : a = i := huniq a (List.mem_cons_self a rest) hpa
      subst ha
      simp [firstMatch, hpa]
    · have hmem : i ∈ rest := by
        rcases List.mem_cons.mp hi with rfl | hmem
        · exact absurd hpi hpa
        · exact hmem
      simp only [firstMatch, hpa, if_false]
      exact ih hmem (fun j hj hpj => huniq j (List.mem_cons_of_mem a hj) hpj)

theorem mem_generate_bucket_names (periods : Nat) (pt : String) (sc : Bool) (j : Nat)
    (h1 : 1 ≤ j) (h2 : j ≤ periods) :
    (if j == 1 then "< 1 " ++ pt else interiorBucketName (j - 1) pt) ∈
      generate_bucket_names periods pt sc := by
  unfold generate_bucket_names
  refine List.mem_append_left _ (List.mem_append_right _ ?_)
  exact List.mem_map.mpr ⟨j, by simp [List.mem_range'_1]; omega, rfl⟩

theorem current_mem_generate (periods : Nat) (pt : String) (sc : Bool) :
    "Current" ∈ generate_bucket_names periods pt sc := by
  unfold generate_bucket_names
  simp

theorem older_mem_generate (periods : Nat) (pt : String) (sc : Bool) :
    "Older" ∈ generate_bucket_names periods pt sc := by
  unfold generate_bucket_names
  simp

theorem interior_one (pt : String) : interiorBucketName 1 pt = "1 " ++ pt := by
  have h1 : Nat.repr 1 ++ " " = "1 " := by decide
  simp only [interiorBucketName, gt_iff_lt, lt_self_iff_false, if_false, String.append_empty, h1]

theorem lt_one_mem_generate (periods : Nat) (pt : String) (sc : Bool) (hp : 1 ≤ periods) :
    "< 1 " ++ pt ∈ generate_bucket_names periods pt sc := by
  have := mem_generate_bucket_names periods pt sc 1 le_rfl hp
  simpa using this

theorem one_mem_generate (periods : Nat) (pt : String) (sc : Bool) (hp : 2 ≤ periods) :
    "1 " ++ pt ∈ generate_bucket_names periods pt sc := by
  have := mem_generate_bucket_names periods pt sc 2 (by omega) hp
  rw [show ((2 : Nat) == 1) = false from rfl] at this
  simpa [interior_one] using this

theorem interior_mem_generate (periods : Nat) (pt : String) (sc : Bool) (i : Nat)
    (h1 : 1 ≤ i) (h2 : i + 1 ≤ periods) :
    interiorBucketName i pt ∈ generate_bucket_names periods pt sc := by
  have := mem_generate_bucket_names periods pt sc (i + 1) (by omega) h2
  have h3 : ((i + 1 : Nat) == 1) = false := by
    simp only [beq_eq_false_iff_ne, ne_eq]
    omega
  rw [h3] at this
  simpa using this

theorem calc_mem_gen_other (rd dd : Date) (periods po : Nat) (pt : String) (sc : Bool)
    (h : (pyLower pt == "month") = false) :
    calculate_aging_bucket rd dd periods po pt sc ∈ generate_bucket_names periods pt sc := by
  simp only [calculate_aging_bucket, h, Bool.false_eq_true, if_false]
  by_cases hd : (rd.toOrdinal : Int) - (dd.toOrdinal : Int) < 0
  · rw [if_pos hd]
    exact current_mem_generate periods pt sc
  · rw [if_neg hd]
    rcases firstMatch_eq_or_mem
        (fun i => decide ((rd.toOrdinal : Int) - (dd.toOrdinal : Int) ≤ (i : Int) *
          ((if (pyLower pt == "day") = true then po
            else if (pyLower pt == "week") = true then po * 7 else po * 30 : Nat) : Int)))
        (fun i => if i == 1 then "< 1 " ++ pt else interiorBucketName (i - 1) pt)
        "Older" (List.range' 1 periods) with he | ⟨i, hi, _, he⟩
    · rw [he]
      exact older_mem_generate periods pt sc
    · rw [he]
      rw [List.mem_range'_1] at hi
      exact mem_generate_bucket_names periods pt sc i hi.1 (by omega)

theorem calc_mem_gen_month (rd dd : Date) (periods po : Nat) (pt : String) (sc : Bool)
    (h : (pyLower pt == "month") = true) (hp : 2 ≤ periods) :
    calculate_aging_bucket rd dd periods po pt sc ∈ generate_bucket_names periods pt sc := by
  simp only [calculate_aging_bucket, h, if_true]
  by_cases hd : (rd.toOrdinal : Int) - (dd.toOrdinal : Int) < 0
  · rw [if_pos hd]
    exact current_mem_generate periods pt sc
  · rw [if_neg hd]
    by_cases h0 : (if rd.day < dd.day then
        ((rd.year : Int) - (dd.year : Int)) * 12 + ((rd.month : Int) - (dd.month : Int)) - 1
      else ((rd.year : Int) - (dd.year : Int)) * 12 + ((rd.month : Int) - (dd.month : Int))) ≤ 0
    · rw [if_pos h0]
      exact lt_one_mem_generate periods pt sc (by omega)
    · rw [if_neg h0]
      by_cases h1 : ((if rd.day < dd.day then
          ((rd.year : Int) - (dd.year : Int)) * 12 + ((rd.month : Int) - (dd.month : Int)) - 1
        else ((rd.year : Int) - (dd.year : Int)) * 12 + ((rd.month : Int) - (dd.month : Int))) ==
          (1 : Int)) = true
      · rw [if_pos h1]
        exact one_mem_generate periods pt sc hp
      · rw [if_neg (by simp [h1])]
        rcases firstMatch_eq_or_mem _ (fun i => interiorBucketName i pt) "Older"
            (List.range' 2 (periods - 2)) with he | ⟨i, hi, _, he⟩
        · rw [he]
          exact older_mem_generate periods pt sc
        · rw [he]
          rw [List.mem_range'_1] at hi
          exact interior_mem_generate periods pt sc i (by omega) (by omega)

theorem interior_ge_two (i : Nat) (pt : String) (h : 2 ≤ i) :
    interiorBucketName i pt = i.repr ++ " " ++ pt ++ "s" := by
  simp only [interiorBucketName, gt_iff_lt]
  rw [if_pos (by omega : 1 < i)]

/-- C1 (counterexample): with `periods = 1` and `period_type = "month"`, a due
date one calendar month overdue is classified `"1 month"`, which is not among
`generate_bucket_names 1 "month"` (= `["Current", "< 1 month", "Older"]`). -/
theorem c1_cex :
    calculate_aging_bucket ⟨2025, 8, 15⟩ ⟨2025, 7, 10⟩ 1 1 "month" true = "1 month" ∧
      "1 month" ∉ generate_bucket_names 1 "month" true := by
  decide

/-- C1 (amended): for `period_type` `"day"` or `"week"` with any `periods`,
and for `period_type` `"month"` (or `"Month"`, `"Day"`, `"Week"`) with
`periods ≥ 2`, the bucket returned by `calculate_aging_bucket` is a member of
the list returned by `generate_bucket_names` for the same configuration. -/
theorem c1_bucket_membership (rd dd : Date) (periods po : Nat) (pt : String) (sc : Bool)
    (hpt : pt = "day" ∨ pt = "week" ∨ pt = "Day" ∨ pt = "Week" ∨
      ((pt = "month" ∨ pt = "Month") ∧ 2 ≤ periods)) :
    calculate_aging_bucket rd dd periods po pt sc ∈ generate_bucket_names periods pt sc := by
  rcases hpt with rfl | rfl | rfl | rfl | ⟨rfl | rfl, hp⟩
  · exact calc_mem_gen_other rd dd periods po "day" sc (by decide)
  · exact calc_mem_gen_other rd dd periods po "week" sc (by decide)
  · exact calc_mem_gen_other rd dd periods po "Day" sc (by decide)
  · exact calc_mem_gen_other rd dd periods po "Week" sc (by decide)
  · exact calc_mem_gen_month rd dd periods po "month" sc (by decide) hp
  · exact calc_mem_gen_month rd dd periods po "Month" sc (by decide) hp

/-- C1 (witness): the amended membership theorem applied at a concrete
configuration and pair of dates. -/
theorem c1_witness :
    calculate_aging_bucket ⟨2025, 8, 15⟩ ⟨2025, 5, 20⟩ 4 1 "month" true ∈
      generate_bucket_names 4 "month" true :=
  c1_bucket_membership ⟨2025, 8, 15⟩ ⟨2025, 5, 20⟩ 4 1 "month" true
    (Or.inr (Or.inr (Or.inr (Or.inr ⟨Or.inl rfl, by omega⟩))))

/-- C7: whenever the due date is strictly after the report date
(lexicographically, i.e. as Python compares `date` values), the bucket is
`"Current"`, for every `periods`, `period_of`, `period_type` and
`show_current`. -/
theorem c7_current_of_due_after (rd dd : Date) (hrd : rd.Valid) (hdd : dd.Valid)
    (periods po : Nat) (pt : String) (sc : Bool) (h : Date.blt rd dd = true) :
    calculate_aging_bucket rd dd periods po pt sc = "Current" := by
  have hlt := toOrdinal_lt_of_blt rd dd hrd hdd h
  simp only [calculate_aging_bucket]
  rw [if_pos (by omega : (rd.toOrdinal : Int) - (dd.toOrdinal : Int) < 0)]

/-- C7 (witness): concrete instance of the `Current` theorem. -/
theorem c7_witness :
    calculate_aging_bucket ⟨2025, 8, 31⟩ ⟨2025, 9, 25⟩ 7 3 "Week" false = "Current" :=
  c7_current_of_due_after ⟨2025, 8, 31⟩ ⟨2025, 9, 25⟩ (by decide) (by decide) 7 3 "Week" false
    (by decide)

/-- C4 (counterexample): the claim's worked example
`classify(2025-08-15, 2025-05-20, periods=4, month)` returns `"2 Months"` —
the day-of-month decrement applies (15 < 20), so `months_diff = 2`, not 3 —
and with `periods = 1` a due date exactly `periods` months overdue yields
`"1 Month"`, not `"Older"`. -/
theorem c4_cex :
    calculate_aging_bucket ⟨2025, 8, 15⟩ ⟨2025, 5, 20⟩ 4 1 "Month" true ≠ "3 Months" ∧
      months_diff_py ⟨2025, 8, 15⟩ ⟨2025, 5, 20⟩ = 2 ∧
      calculate_aging_bucket ⟨2025, 8, 15⟩ ⟨2025, 7, 10⟩ 1 1 "Month" true = "1 Month" := by
  decide

/-- C4 (amended): for `due_date ≤ report_date` (valid dates) and
`period_type = "Month"`, classification is a function of
`months_diff_py`: `≤ 0` gives `"< 1 Month"`, `= 1` gives `"1 Month"`,
`2 ≤ m < periods` gives `"{m} Months"`, and anything `≥ periods` (in
particular `m = periods` when `periods ≥ 2`) gives `"Older"`; the claim's
worked example evaluates to `"2 Months"` (months_diff = 2). -/
theorem c4_month_rule :
    (∀ (rd dd : Date), rd.Valid → dd.Valid → Date.ble dd rd = true →
      ∀ (periods po : Nat),
        calculate_aging_bucket rd dd periods po "Month" true =
          (if months_diff_py rd dd ≤ 0 then "< 1 Month"
           else if months_diff_py rd dd = 1 then "1 Month"
           else if months_diff_py rd dd < (periods : Int) then
             (months_diff_py rd dd).toNat.repr ++ " Months"
           else "Older")) ∧
    calculate_aging_bucket ⟨2025, 8, 15⟩ ⟨2025, 5, 20⟩ 4 1 "Month" true = "2 Months" := by
  constructor
  · intro rd dd hrd hdd hle periods po
    have hge : dd.toOrdinal ≤ rd.toOrdinal := toOrdinal_le_of_ble dd rd hdd hrd hle
    simp only [calculate_aging_bucket]
    rw [if_neg (by omega : ¬((rd.toOrdinal : Int) - (dd.toOrdinal : Int) < 0))]
    rw [if_pos (by decide : (pyLower "Month" == "month") = true)]
    have hM : (if rd.day < dd.day then
        ((rd.year : Int) - (dd.year : Int)) * 12 + ((rd.month : Int) - (dd.month : Int)) - 1
      else ((rd.year : Int) - (dd.year : Int)) * 12 + ((rd.month : Int) - (dd.month : Int))) =
        months_diff_py rd dd := by
      unfold months_diff_py
      split <;> omega
    simp only [hM]
    by_cases h0 : months_diff_py rd dd ≤ 0
    · rw [if_pos h0, if_pos h0]
      decide
    · rw [if_neg h0, if_neg h0]
      by_cases h1 : months_diff_py rd dd = 1
      · rw [if_pos (by simp [h1] : (months_diff_py rd dd == (1 : Int)) = true), if_pos h1]
        decide
      · rw [if_neg (by simp [h1] : ¬(months_diff_py rd dd == (1 : Int)) = true), if_neg h1]
        by_cases h2 : months_diff_py rd dd < (periods : Int)
        · rw [if_pos h2]
          rw [firstMatch_eq_of_unique _ _ _ _ (months_diff_py rd dd).toNat _ (by simp; omega) _]
          · rw [interior_ge_two (months_diff_py rd dd).toNat "Month" (by omega)]
            rw [String.append_assoc, String.append_assoc]
            rfl
          · simp only [List.mem_range'_1]
            omega
          · intro j _ hpj
            simp only [beq_iff_eq] at hpj
            omega
        · rw [if_neg h2]
          apply firstMatch_eq_default
          intro j hj
          rw [List.mem_range'_1] at hj
          simp only [beq_eq_false_iff_ne, ne_eq]
          omega
  · decide

/-- C4 (witness): the amended month-classification theorem applied at a
concrete pair of valid dates and configuration. -/
theorem c4_witness :
    calculate_aging_bucket ⟨2025, 6, 30⟩ ⟨2025, 3, 10⟩ 5 1 "Month" true = "3 Months" := by
  rw [c4_month_rule.1 ⟨2025, 6, 30⟩ ⟨2025, 3, 10⟩ (by decide) (by decide) (by decide) 5 1]
  decide

/-- C5: the reference date used by `process_financial_item` is selected in
the spec's priority order — allocation date first (when the item has a
non-empty `allocations` attribute and a `date`), then for credit notes
without allocations `due_date` and the alternate `DueDate` attribute, then
the record's own date field, then the caller-supplied fallback (defaulting
to the report date). -/
theorem c5_reference_date_selection (item : Item) (item_type date_field : String)
    (report_date : Date) (date_fallback : Option Date) :
    select_reference_date item item_type date_field report_date date_fallback =
      reference_date_spec item item_type date_field report_date date_fallback := by
  unfold select_reference_date reference_date_spec
  cases hAt : item.hasattr_allocations <;>
    cases hAl : item.allocations <;>
      by_cases hCN : (item_type == "credit_note") = true <;>
        cases hD : item.date <;>
          cases hDD : item.due_date <;>
            cases hDD2 : item.DueDate <;>
              cases hha : item.hasattr_due_date <;>
                cases hhb : item.hasattr_DueDate <;>
                  simp [hAt, hAl, hCN, hD, hDD, hDD2, hha, hhb]

example :
    select_reference_date
      { date := some ⟨2025, 1, 5⟩, due_date := some ⟨2025, 3, 9⟩ }
      "credit_note" "date" ⟨2025, 8, 31⟩ none = ⟨2025, 1, 5⟩ := by decide

example :
    select_reference_date
      { date := some ⟨2025, 1, 5⟩, due_date := some ⟨2025, 3, 9⟩, hasattr_due_date := true }
      "credit_note" "date" ⟨2025, 8, 31⟩ none = ⟨2025, 3, 9⟩ := by decide

/-- C6 (counterexample): processing an overpayment that carries
`overpayment_id = "OP-123"` records the item detail with number
`"Unknown"` and id `None` — not the overpayment's id — because
`process_financial_item` has no `"overpayment"` branch. -/
theorem c6_cex :
    c6_overpayment.overpayment_id = some "OP-123" ∧
      (process_financial_item c6_overpayment c6_params []).bind
          (fun r => detailListAt r "Ops|Tenant A|Acme" "Current") =
        some [{ item_number := some "Unknown", item_id := none, amount := -40,
                is_negative := true, status := none, item_type := "overpayment" }] := by
  decide

/-- C6 (amended): the display identifiers recorded by
`process_financial_item` are: invoice → `invoice_number`/`invoice_id`;
credit note → `credit_note_number`/`credit_note_id`; bank transaction →
first 8 characters of its id as number and the full id as id; an
overpayment is not special-cased and falls to the default branch, recording
number `"Unknown"` and id `None` (its `overpayment_id` is never read). -/
theorem c6_display_identifiers (item : Item) (ps : ProcParams) :
    (ps.item_type = "invoice" →
      (mkDetail item ps).item_number = item.invoice_number ∧
        (mkDetail item ps).item_id = item.invoice_id) ∧
    (ps.item_type = "credit_note" →
      (mkDetail item ps).item_number = item.credit_note_number ∧
        (mkDetail item ps).item_id = item.credit_note_id) ∧
    (ps.item_type = "bank_transaction" →
      (mkDetail item ps).item_number = some ((item.bank_transaction_id.getD "Unknown").take 8) ∧
        (mkDetail item ps).item_id = item.bank_transaction_id) ∧
    (ps.item_type = "overpayment" →
      (mkDetail item ps).item_number = some "Unknown" ∧
        (mkDetail item ps).item_id = none) := by
  refine ⟨fun h => ?_, fun h => ?_, fun h => ?_, fun h => ?_⟩ <;>
    simp [mkDetail, extractIds, h]

/-- C6 (witness): the identifier theorem applied to the concrete
overpayment record. -/
theorem c6_witness :
    (mkDetail c6_overpayment c6_params).item_number = some "Unknown" ∧
      (mkDetail c6_overpayment c6_params).item_id = none :=
  (c6_display_identifiers c6_overpayment c6_params).2.2.2 rfl

/-- C2: for the example invoice and `report_date = 2025-08-31` the Set-C
early-paid filter includes the invoice with reported amount `500.00` and
negative sign, and the classifier puts its due date (`2025-09-25`, after the
report date) in the `Current` bucket. -/
theorem c2_early_paid_example :
    earlyPaidProcess c2_invoice ⟨2025, 8, 31⟩ = some (500, true) ∧
      calculate_aging_bucket ⟨2025, 8, 31⟩ ⟨2025, 9, 25⟩ 4 1 "Month" true = "Current" := by
  constructor
  · simp [earlyPaidProcess, c2_invoice, optSomeGt, optSomeLe, optSomeGe, Date.ble, Date.blt]
  · decide

/-- C3: a Set-A invoice satisfying rule 7's condition (issued on/before and
due on/before the report date, partially paid: `amount_paid > 0` and
`amount_due > 0`) and none of rules 1-6 — given those conditions, rules 1-5
are automatically false and rule 6 fails exactly when the resolved payment
date is not after the report date — is included with positive sign
(`is_negative = false`) and reported amount `amount_due`: the amount is not
negated. -/
theorem c3_rule7_positive (inv : XeroInvoice) (report_date : Date) (i d : Date)
    (htype : inv.invoice_type = "ACCREC")
    (hissue : inv.date = some i) (hile : Date.ble i report_date = true)
    (hdue : inv.due_date = some d) (hdle : Date.ble d report_date = true)
    (hpaid : 0 < inv.amount_paid) (hdue_amt : 0 < inv.amount_due)
    (hnot6 : optSomeGt (resolvePaymentDate inv report_date) report_date = false) :
    setA_decide inv report_date = some (false, inv.amount_due) := by
  have hrd_i : Date.blt report_date i = false := date_not_blt_of_ble i report_date hile
  have hrd_d : Date.blt report_date d = false := date_not_blt_of_ble d report_date hdle
  have hne : ¬(inv.amount_due = 0) := ne_of_gt hdue_amt
  simp only [optSomeGt] at hnot6
  simp only [setA_decide, htype, hissue, hdue, optSomeLe, optSomeGt, optSomeGe,
    hile, hrd_i, hrd_d, hnot6, hne, hpaid, hdue_amt, decide_eq_true_eq, decide_True,
    decide_False, Bool.and_true, Bool.and_false, Bool.true_and, Bool.false_and,
    Bool.or_false, Bool.false_or, if_true, if_false, beq_self_eq_true, Bool.and_self]
  simp [hnot6, hne, hpaid, hdue_amt, hdle]

/-- C3 (witness): the rule-7 theorem applied to the concrete invoice. -/
theorem c3_witness :
    setA_decide c3_invoice ⟨2025, 6, 30⟩ = some (false, 50) :=
  c3_rule7_positive c3_invoice ⟨2025, 6, 30⟩ ⟨2025, 6, 1⟩ ⟨2025, 6, 15⟩ rfl rfl
    (by decide) rfl (by decide) (by decide) (by decide) (by decide)

/-- C10: every invoice included by the Set-A past/present-date decision
table carries `is_negative = false`: the only negative-sign rule (scenario
4) requires `issue_date > report_date`, which contradicts the loop guard
`invoice.date <= report_date` under which the table is evaluated, so it is
unreachable; every other including branch sets the sign positive. -/
theorem c10_setA_never_negative (inv : XeroInvoice) (report_date : Date)
    (neg : Bool) (amt : ℚ) (h : setA_decide inv report_date = some (neg, amt)) :
    neg = false := by
  simp only [setA_decide] at h
  by_cases hG : (inv.invoice_type == "ACCREC" && optSomeLe inv.date report_date) = true
  case neg =>
    rw [if_neg hG] at h
    exact absurd h (by simp)
  case pos =>
    rw [if_pos hG] at h
    rw [Bool.and_eq_true] at hG
    have hle := hG.2
    by_cases hc1 : (optSomeLe inv.date report_date &&
        optSomeLe (resolvePaymentDate inv report_date) report_date &&
        optSomeGt inv.due_date report_date) = true
    · rw [if_pos hc1] at h
      by_cases hc1a : (optSomeLe inv.date report_date &&
          optSomeLe (resolvePaymentDate inv report_date) report_date &&
          decide (0 < inv.amount_due)) = true
      · rw [if_pos hc1a] at h
        simp only [Option.some.injEq, Prod.mk.injEq] at h
        exact h.1.symm
      · rw [if_neg hc1a] at h
        exact absurd h (by simp)
    · rw [if_neg hc1] at h
      by_cases hc2 : (optSomeLe inv.date report_date &&
          ((resolvePaymentDate inv report_date).isSome &&
            optSomeLe (resolvePaymentDate inv report_date) report_date) &&
          optSomeLe inv.due_date report_date && decide (inv.amount_due = 0)) = true
      · rw [if_pos hc2] at h
        exact absurd h (by simp)
      · rw [if_neg hc2] at h
        by_cases hc3 : (optSomeLe inv.date report_date &&
            ((resolvePaymentDate inv report_date).isNone ||
              optSomeGt (resolvePaymentDate inv report_date) report_date) &&
            optSomeGt inv.due_date report_date) = true
        · rw [if_pos hc3] at h
          simp only [Option.some.injEq, Prod.mk.injEq] at h
          exact h.1.symm
        · rw [if_neg hc3] at h
          by_cases hc4 : (optSomeGt inv.date report_date &&
              optSomeLe (resolvePaymentDate inv report_date) report_date &&
              optSomeGe inv.due_date report_date) = true
          · -- scenario 4 contradicts the loop guard issue_date <= report_date
            exfalso
            rw [Bool.and_eq_true] at hc4
            have hgt := hc4.1
            cases hd : inv.date with
            | none =>
              rw [hd] at hle
              exact absurd hle (by simp [optSomeLe])
            | some i =>
              rw [hd] at hle hgt
              simp only [optSomeLe] at hle
              simp only [optSomeGt] at hgt
              rw [date_not_blt_of_ble i report_date hle] at hgt
              exact absurd hgt (by simp)
          · rw [if_neg hc4] at h
            by_cases hc5 : (optSomeLe inv.date report_date &&
                optSomeLe (resolvePaymentDate inv report_date) report_date &&
                decide (inv.amount_due = 0)) = true
            · rw [if_pos hc5] at h
              exact absurd h (by simp)
            · rw [if_neg hc5] at h
              by_cases hc6 : (optSomeLe inv.date report_date &&
                  optSomeGt (resolvePaymentDate inv report_date) report_date) = true
              · rw [if_pos hc6] at h
                simp only [Option.some.injEq, Prod.mk.injEq] at h
                exact h.1.symm
              · rw [if_neg hc6] at h
                by_cases hc7 : (optSomeLe inv.date report_date &&
                    optSomeLe inv.due_date report_date &&
                    decide (0 < inv.amount_paid) && decide (0 < inv.amount_due)) = true
                · rw [if_pos hc7] at h
                  simp only [Option.some.injEq, Prod.mk.injEq] at h
                  exact h.1.symm
                · rw [if_neg hc7] at h
                  by_cases hc8 : (optSomeLe inv.date report_date &&
                      ((resolvePaymentDate inv report_date).isNone ||
                        optSomeGt (resolvePaymentDate inv report_date) report_date)) = true
                  · rw [if_pos hc8] at h
                    simp only [Option.some.injEq, Prod.mk.injEq] at h
                    exact h.1.symm
                  · rw [if_neg hc8] at h
                    by_cases hc9 : (optSomeLe inv.date report_date &&
                        match resolvePaymentDate inv report_date with
                        | some pd => pd == report_date
                        | none => false) = true
                    · rw [if_pos hc9] at h
                      exact absurd h (by simp)
                    · rw [if_neg hc9] at h
                      by_cases hc10 : (optSomeLe inv.date report_date &&
                          optSomeLe (resolvePaymentDate inv report_date) report_date) = true
                      · rw [if_pos hc10] at h
                        exact absurd h (by simp)
                      · rw [if_neg hc10] at h
                        exact absurd h (by simp)

/-- C10 (witness): the invariant applied to a concrete included invoice. -/
theorem c10_witness :
    (setA_decide c3_invoice ⟨2025, 6, 30⟩ = some (false, 50)) ∧ false = false :=
  ⟨by decide, c10_setA_never_negative c3_invoice ⟨2025, 6, 30⟩ false 50 (by decide)⟩

example : parseYMD "2025-08-31" = some ⟨2025, 8, 31⟩ := by decide

example : parseYMD "2025-9-5" = some ⟨2025, 9, 5⟩ := by decide

example : parseYMD "2025-02-30" = none := by decide

example : parseYMD "31-08-2025" = none := by decide

/-- C9: a present but unparsable `report_date` makes
`generate_aged_receivables_report` fail with HTTP 400 before any connection
is processed: the result is `Except.error 400` for every connection list, so
no per-connection work happens and no `FailureDescriptor` is produced. -/
theorem c9_invalid_report_date_fatal (s : String) (today : Date) (conns : List ConnData)
    (h : parseYMD s = none) :
    generate_aged_receivables_report (some s) today conns = .error 400 := by
  simp [generate_aged_receivables_report, h]

/-- C9 (witness): an unparsable date string fails fast even when a
connection with a failing fetch is present. -/
theorem c9_witness :
    generate_aged_receivables_report (some "not-a-date") ⟨2025, 8, 31⟩
      [⟨"7", "Tenant A", .error "boom"⟩] = .error 400 :=
  c9_invalid_report_date_fatal "not-a-date" ⟨2025, 8, 31⟩
    [⟨"7", "Tenant A", .error "boom"⟩] (by decide)

theorem alookup_aset_self {α : Type} (k : String) (v : α) (r : List (String × α)) :
    alookup k (aset k v r) = some v := by
  induction r with
  | nil => simp [aset, alookup]
  | cons p rest ih =>
    by_cases h : (p.1 == k) = true
    · simp [aset, alookup, h]
    · simp only [aset, alookup]
      rw [if_neg h, alookup]
      rw [if_neg h]
      exact ih

theorem alookup_aset_ne {α : Type} (k k' : String) (v : α) (r : List (String × α))
    (h : k' ≠ k) : alookup k' (aset k v r) = alookup k' r := by
  induction r with
  | nil =>
    simp only [aset, alookup]
    rw [if_neg (by simpa using fun hc => h hc.symm)]
  | cons p rest ih =>
    by_cases hp : (p.1 == k) = true
    · simp only [aset]
      rw [if_pos hp, alookup, alookup]
      have hk : p.1 = k := by simpa using hp
      rw [if_neg (by simp [hk]; exact fun hc => h hc.symm),
        if_neg (by simp [hk]; exact fun hc => h hc.symm)]
    · simp only [aset]
      rw [if_neg hp, alookup, alookup]
      by_cases hq : (p.1 == k') = true
      · rw [if_pos hq, if_pos hq]
      · rw [if_neg hq, if_neg hq]
        exact ih

theorem updateAmount_isSome_iff (b : String) (v : ℚ) (l : List (String × ℚ)) :
    (updateAmount b v l).isSome = true ↔ b ∈ l.map Prod.fst := by
  induction l with
  | nil => simp [updateAmount]
  | cons p rest ih =>
    simp only [updateAmount, List.map_cons, List.mem_cons]
    by_cases h : (p.1 == b) = true
    · have hb : p.1 = b := beq_iff_eq.mp h
      simp [h, hb]
    · simp only [h, Bool.false_eq_true, if_false]
      cases hu : updateAmount b v rest with
      | none =>
        rw [hu] at ih
        simp only [Option.map_none', Option.isSome_none, Bool.false_eq_true, false_iff] at *
        rintro (rfl | hm)
        · exact h (beq_self_eq_true p.1)
        · exact ih hm
      | some l' =>
        rw [hu] at ih
        simp only [Option.map_some', Option.isSome_some, true_iff] at *
        exact Or.inr ih

theorem updateAmount_eq_none (b : String) (v : ℚ) (l : List (String × ℚ))
    (h : b ∉ l.map Prod.fst) : updateAmount b v l = none := by
  cases hu : updateAmount b v l with
  | none => rfl
  | some l' =>
    exact absurd ((updateAmount_isSome_iff b v l).mp (by simp [hu])) h

theorem updateAmount_exists (b : String) (v : ℚ) (l : List (String × ℚ))
    (h : b ∈ l.map Prod.fst) : ∃ l', updateAmount b v l = some l' := by
  have hs := (updateAmount_isSome_iff b v l).mpr h
  cases hu : updateAmount b v l with
  | none => rw [hu] at hs; simp at hs
  | some l' => exact ⟨l', rfl⟩

theorem updateAmount_map_fst (b : String) (v : ℚ) (l l' : List (String × ℚ))
    (h : updateAmount b v l = some l') : l'.map Prod.fst = l.map Prod.fst := by
  induction l generalizing l' with
  | nil => simp [updateAmount] at h
  | cons p rest ih =>
    by_cases hp : (p.1 == b) = true
    · simp only [updateAmount, hp, if_true, Option.some.injEq] at h
      subst h
      simp
    · simp only [updateAmount, hp, Bool.false_eq_true, if_false, Option.map_eq_some'] at h
      obtain ⟨r', hr', rfl⟩ := h
      simp [ih r' hr']

theorem alookup_updateAmount_self (b : String) (v : ℚ) (l l' : List (String × ℚ))
    (h : updateAmount b v l = some l') :
    alookup b l' = (alookup b l).map (fun q => q + v) := by
  induction l generalizing l' with
  | nil => simp [updateAmount] at h
  | cons p rest ih =>
    by_cases hp : (p.1 == b) = true
    · simp only [updateAmount, hp, if_true, Option.some.injEq] at h
      subst h
      simp [alookup, hp]
    · simp only [updateAmount, hp, Bool.false_eq_true, if_false, Option.map_eq_some'] at h
      obtain ⟨r', hr', rfl⟩ := h
      simp only [alookup, hp, Bool.false_eq_true, if_false]
      exact ih r' hr'

theorem alookup_updateAmount_ne (b b' : String) (v : ℚ) (l l' : List (String × ℚ))
    (hne : b' ≠ b) (h : updateAmount b v l = some l') :
    alookup b' l' = alookup b' l := by
  induction l generalizing l' with
  | nil => simp [updateAmount] at h
  | cons p rest ih =>
    by_cases hp : (p.1 == b) = true
    · simp only [updateAmount, hp, if_true, Option.some.injEq] at h
      subst h
      have hb : p.1 = b := beq_iff_eq.mp hp
      simp only [alookup]
      have : (p.1 == b') = (b == b') := by rw [hb]
      rw [this]
      have hbb : (b == b') = false := by
        simp only [beq_eq_false_iff_ne, ne_eq]
        exact fun hc => hne hc.symm
      rw [hbb]
      simp
    · simp only [updateAmount, hp, Bool.false_eq_true, if_false, Option.map_eq_some'] at h
      obtain ⟨r', hr', rfl⟩ := h
      simp only [alookup]
      by_cases hq : (p.1 == b') = true
      · rw [if_pos hq, if_pos hq]
      · rw [if_neg hq, if_neg hq]
        exact ih r' hr'

theorem appendDetail_isSome_iff (b : String) (d : Detail) (l : List (String × List Detail)) :
    (appendDetail b d l).isSome = true ↔ b ∈ l.map Prod.fst := by
  induction l with
  | nil => simp [appendDetail]
  | cons p rest ih =>
    simp only [appendDetail, List.map_cons, List.mem_cons]
    by_cases h : (p.1 == b) = true
    · have hb : p.1 = b := beq_iff_eq.mp h
      simp [h, hb]
    · simp only [h, Bool.false_eq_true, if_false]
      cases hu : appendDetail b d rest with
      | none =>
        rw [hu] at ih
        simp only [Option.map_none', Option.isSome_none, Bool.false_eq_true, false_iff] at *
        rintro (rfl | hm)
        · exact h (beq_self_eq_true p.1)
        · exact ih hm
      | some l' =>
        rw [hu] at ih
        simp only [Option.map_some', Option.isSome_some, true_iff] at *
        exact Or.inr ih

theorem appendDetail_eq_none (b : String) (d : Detail) (l : List (String × List Detail))
    (h : b ∉ l.map Prod.fst) : appendDetail b d l = none := by
  cases hu : appendDetail b d l with
  | none => rfl
  | some l' =>
    exact absurd ((appendDetail_isSome_iff b d l).mp (by simp [hu])) h

theorem appendDetail_exists (b : String) (d : Detail) (l : List (String × List Detail))
    (h : b ∈ l.map Prod.fst) : ∃ l', appendDetail b d l = some l' := by
  have hs := (appendDetail_isSome_iff b d l).mpr h
  cases hu : appendDetail b d l with
  | none => rw [hu] at hs; simp at hs
  | some l' => exact ⟨l', rfl⟩

theorem appendDetail_map_fst (b : String) (d : Detail) (l l' : List (String × List Detail))
    (h : appendDetail b d l = some l') : l'.map Prod.fst = l.map Prod.fst := by
  induction l generalizing l' with
  | nil => simp [appendDetail] at h
  | cons p rest ih =>
    by_cases hp : (p.1 == b) = true
    · simp only [appendDetail, hp, if_true, Option.some.injEq] at h
      subst h
      simp
    · simp only [appendDetail, hp, Bool.false_eq_true, if_false, Option.map_eq_some'] at h
      obtain ⟨r', hr', rfl⟩ := h
      simp [ih r' hr']

theorem alookup_appendDetail_self (b : String) (d : Detail) (l l' : List (String × List Detail))
    (h : appendDetail b d l = some l') :
    alookup b l' = (alookup b l).map (fun dl => dl ++ [d]) := by
  induction l generalizing l' with
  | nil => simp [appendDetail] at h
  | cons p rest ih =>
    by_cases hp : (p.1 == b) = true
    · simp only [appendDetail, hp, if_true, Option.some.injEq] at h
      subst h
      simp [alookup, hp]
    · simp only [appendDetail, hp, Bool.false_eq_true, if_false, Option.map_eq_some'] at h
      obtain ⟨r', hr', rfl⟩ := h
      simp only [alookup, hp, Bool.false_eq_true, if_false]
      exact ih r' hr'

theorem alookup_appendDetail_ne (b b' : String) (d : Detail) (l l' : List (String × List Detail))
    (hne : b' ≠ b) (h : appendDetail b d l = some l') :
    alookup b' l' = alookup b' l := by
  induction l generalizing l' with
  | nil => simp [appendDetail] at h
  | cons p rest ih =>
    by_cases hp : (p.1 == b) = true
    · simp only [appendDetail, hp, if_true, Option.some.injEq] at h
      subst h
      have hb : p.1 = b := beq_iff_eq.mp hp
      simp only [alookup]
      have hx : (p.1 == b') = (b == b') := by rw [hb]
      rw [hx]
      have hbb : (b == b') = false := by
        simp only [beq_eq_false_iff_ne, ne_eq]
        exact fun hc => hne hc.symm
      rw [hbb]
      simp
    · simp only [appendDetail, hp, Bool.false_eq_true, if_false, Option.map_eq_some'] at h
      obtain ⟨r', hr', rfl⟩ := h
      simp only [alookup]
      by_cases hq : (p.1 == b') = true
      · rw [if_pos hq, if_pos hq]
      · rw [if_neg hq, if_neg hq]
        exact ih r' hr'

theorem alookup_map_init_amounts (b : String) (names : List String) :
    alookup b (names.map (fun n => (n, (0 : ℚ)))) =
      (if b ∈ names then some 0 else none) := by
  induction names with
  | nil => simp [alookup]
  | cons n rest ih =>
    simp only [List.map_cons, alookup, List.mem_cons]
    by_cases h : (n == b) = true
    · have hb : n = b := beq_iff_eq.mp h
      rw [if_pos h, if_pos (Or.inl hb.symm)]
    · rw [if_neg h, ih]
      have hne : ¬ b = n := fun hc => h (by simp [hc])
      by_cases hm : b ∈ rest
      · rw [if_pos hm, if_pos (Or.inr hm)]
      · rw [if_neg hm, if_neg (by rintro (hc | hc) <;> [exact hne hc; exact hm hc])]

theorem alookup_map_init_details (b : String) (names : List String) :
    alookup b (names.map (fun n => (n, ([] : List Detail)))) =
      (if b ∈ names then some [] else none) := by
  induction names with
  | nil => simp [alookup]
  | cons n rest ih =>
    simp only [List.map_cons, alookup, List.mem_cons]
    by_cases h : (n == b) = true
    · have hb : n = b := beq_iff_eq.mp h
      rw [if_pos h, if_pos (Or.inl hb.symm)]
    · rw [if_neg h, ih]
      have hne : ¬ b = n := fun hc => h (by simp [hc])
      by_cases hm : b ∈ rest
      · rw [if_pos hm, if_pos (Or.inr hm)]
      · rw [if_neg hm, if_neg (by rintro (hc | hc) <;> [exact hne hc; exact hm hc])]

theorem map_fst_init_amounts (names : List String) :
    (names.map (fun n => (n, (0 : ℚ)))).map Prod.fst = names := by
  simp [Function.comp_def]

theorem map_fst_init_details (names : List String) :
    (names.map (fun n => (n, ([] : List Detail)))).map Prod.fst = names := by
  simp [Function.comp_def]

theorem process_skips (item : Item) (ps : ProcParams) (r : Report)
    (h : callSkips item ps) : process_financial_item item ps r = some r := by
  unfold process_financial_item
  rw [if_pos h]

theorem process_fails (names : List String) (item : Item) (ps : ProcParams)
    (hns : ps.bucket_names = names) (r : Report) (hwf : ReportWF names r)
    (hsk : ¬ callSkips item ps) (hb : callBucket item ps ∉ names) :
    process_financial_item item ps r = none := by
  simp only [process_financial_item]
  rw [if_neg hsk]
  cases hE : alookup (callKey item ps) r with
  | some e =>
    obtain ⟨ha, _⟩ := hwf _ _ hE
    rw [updateAmount_eq_none _ _ _ (by rw [ha]; exact hb)]
  | none =>
    rw [updateAmount_eq_none _ _ _ (by rw [map_fst_init_amounts, hns]; exact hb)]

theorem process_succeeds (names : List String) (item : Item) (ps : ProcParams)
    (hns : ps.bucket_names = names) (r : Report) (hwf : ReportWF names r)
    (hsk : ¬ callSkips item ps) (hb : callBucket item ps ∈ names) :
    ∃ r', process_financial_item item ps r = some r' ∧ ReportWF names r' ∧
      (∀ k, (alookup k r').isSome = true ↔
        k = callKey item ps ∨ (alookup k r).isSome = true) ∧
      (∀ k b, k ≠ callKey item ps → amountAt r' k b = amountAt r k b ∧
        detailListAt r' k b = detailListAt r k b) ∧
      (∀ b, b ≠ callBucket item ps →
        amountAt r' (callKey item ps) b = baseAmount names r (callKey item ps) b ∧
        detailListAt r' (callKey item ps) b = baseDetails names r (callKey item ps) b) ∧
      amountAt r' (callKey item ps) (callBucket item ps) =
        (baseAmount names r (callKey item ps) (callBucket item ps)).map
          (fun q => q + callSigned item ps) ∧
      detailListAt r' (callKey item ps) (callBucket item ps) =
        (baseDetails names r (callKey item ps) (callBucket item ps)).map
          (fun dl => dl ++ callDetails item ps) := by
  simp only [process_financial_item]
  rw [if_neg hsk]
  cases hE : alookup (callKey item ps) r with
  | some e =>
    dsimp only
    obtain ⟨ha, hd⟩ := hwf _ _ hE
    obtain ⟨amounts2, hup⟩ :=
      updateAmount_exists (callBucket item ps) (callSigned item ps) e.amounts
        (by rw [ha]; exact hb)
    rw [hup]
    dsimp only
    have hup_fst := updateAmount_map_fst _ _ _ _ hup
    have hup_self := alookup_updateAmount_self _ _ _ _ hup
    have hup_ne := fun b' hne => alookup_updateAmount_ne _ b' _ _ _ hne hup
    by_cases ht : pyTruthyS (extractIds ps.item_type item).1 = true
    · rw [if_pos ht]
      obtain ⟨details2, hap⟩ :=
        appendDetail_exists (callBucket item ps) (mkDetail item ps) e.details
          (by rw [hd]; exact hb)
      rw [hap]
      dsimp only
      have hap_fst := appendDetail_map_fst _ _ _ _ hap
      have hap_self := alookup_appendDetail_self _ _ _ _ hap
      have hap_ne := fun b' hne => alookup_appendDetail_ne _ b' _ _ _ hne hap
      have hcd : callDetails item ps = [mkDetail item ps] := by
        simp [callDetails, ht]
      refine ⟨_, rfl, ?_, ?_, ?_, ?_, ?_, ?_⟩
      · intro k e' hk
        by_cases hkK : k = callKey item ps
        · subst hkK
          rw [alookup_aset_self] at hk
          cases hk
          constructor
          · rw [hup_fst]; exact ha
          · rw [hap_fst]; exact hd
        · rw [alookup_aset_ne _ _ _ _ hkK] at hk
          exact hwf _ _ hk
      · intro k
        by_cases hkK : k = callKey item ps
        · subst hkK
          rw [alookup_aset_self]
          simp
        · rw [alookup_aset_ne _ _ _ _ hkK]
          simp [hkK]
      · intro k b hkK
        unfold amountAt detailListAt
        rw [alookup_aset_ne _ _ _ _ hkK]
        exact ⟨rfl, rfl⟩
      · intro b hbB
        unfold amountAt detailListAt baseAmount baseDetails
        rw [alookup_aset_self, hE]
        exact ⟨by simp [hup_ne b hbB], by simp [hap_ne b hbB]⟩
      · unfold amountAt baseAmount
        rw [alookup_aset_self, hE]
        simp [hup_self]
      · unfold detailListAt baseDetails
        rw [alookup_aset_self, hE, hcd]
        simp [hap_self]
    · rw [if_neg ht]
      have hcd : callDetails item ps = [] := by
        simp only [callDetails]
        rw [if_neg ht]
      refine ⟨_, rfl, ?_, ?_, ?_, ?_, ?_⟩
      · intro k e' hk
        by_cases hkK : k = callKey item ps
        · subst hkK
          rw [alookup_aset_self] at hk
          cases hk
          constructor
          · rw [hup_fst]; exact ha
          · exact hd
        · rw [alookup_aset_ne _ _ _ _ hkK] at hk
          exact hwf _ _ hk
      · intro k
        by_cases hkK : k = callKey item ps
        · subst hkK
          rw [alookup_aset_self]
          simp
        · rw [alookup_aset_ne _ _ _ _ hkK]
          simp [hkK]
      · intro k b hkK
        unfold amountAt detailListAt
        rw [alookup_aset_ne _ _ _ _ hkK]
        exact ⟨rfl, rfl⟩
      · intro b hbB
        unfold amountAt detailListAt baseAmount baseDetails
        rw [alookup_aset_self, hE]
        exact ⟨by simp [hup_ne b hbB], by simp⟩
      · constructor
        · unfold amountAt baseAmount
          rw [alookup_aset_self, hE]
          simp [hup_self]
        · unfold detailListAt baseDetails
          rw [alookup_aset_self, hE, hcd]
          simp
  | none =>
    dsimp only
    have hinit_a : (ps.bucket_names.map (fun n => (n, (0 : ℚ)))).map Prod.fst = names := by
      rw [map_fst_init_amounts, hns]
    have hinit_d :
        (ps.bucket_names.map (fun n => (n, ([] : List Detail)))).map Prod.fst = names := by
      rw [map_fst_init_details, hns]
    obtain ⟨amounts2, hup⟩ :=
      updateAmount_exists (callBucket item ps) (callSigned item ps)
        (ps.bucket_names.map (fun n => (n, (0 : ℚ)))) (by rw [hinit_a]; exact hb)
    rw [hup]
    dsimp only
    have hup_fst := updateAmount_map_fst _ _ _ _ hup
    have hup_self := alookup_updateAmount_self _ _ _ _ hup
    have hup_ne := fun b' hne => alookup_updateAmount_ne _ b' _ _ _ hne hup
    have hbase_a : ∀ b, alookup b (ps.bucket_names.map (fun n => (n, (0 : ℚ)))) =
        (if b ∈ names then some 0 else none) := by
      intro b
      rw [alookup_map_init_amounts, hns]
    have hbase_d : ∀ b, alookup b (ps.bucket_names.map (fun n => (n, ([] : List Detail)))) =
        (if b ∈ names then some [] else none) := by
      intro b
      rw [alookup_map_init_details, hns]
    by_cases ht : pyTruthyS (extractIds ps.item_type item).1 = true
    · rw [if_pos ht]
      obtain ⟨details2, hap⟩ :=
        appendDetail_exists (callBucket item ps) (mkDetail item ps)
          (ps.bucket_names.map (fun n => (n, ([] : List Detail)))) (by rw [hinit_d]; exact hb)
      rw [hap]
      dsimp only
      have hap_fst := appendDetail_map_fst _ _ _ _ hap
      have hap_self := alookup_appendDetail_self _ _ _ _ hap
      have hap_ne := fun b' hne => alookup_appendDetail_ne _ b' _ _ _ hne hap
      have hcd : callDetails item ps = [mkDetail item ps] := by
        simp [callDetails, ht]
      refine ⟨_, rfl, ?_, ?_, ?_, ?_, ?_, ?_⟩
      · intro k e' hk
        by_cases hkK : k = callKey item ps
        · subst hkK
          rw [alookup_aset_self] at hk
          cases hk
          constructor
          · rw [hup_fst]; exact hinit_a
          · rw [hap_fst]; exact hinit_d
        · rw [alookup_aset_ne _ _ _ _ hkK] at hk
          exact hwf _ _ hk
      · intro k
        by_cases hkK : k = callKey item ps
        · subst hkK
          rw [alookup_aset_self]
          simp
        · rw [alookup_aset_ne _ _ _ _ hkK]
          simp [hkK]
      · intro k b hkK
        unfold amountAt detailListAt
        rw [alookup_aset_ne _ _ _ _ hkK]
        exact ⟨rfl, rfl⟩
      · intro b hbB
        unfold amountAt detailListAt baseAmount baseDetails
        rw [alookup_aset_self, hE]
        constructor
        · dsimp only [Option.some_bind]
          rw [hup_ne b hbB, hbase_a b]
        · dsimp only [Option.some_bind]
          rw [hap_ne b hbB, hbase_d b]
      · unfold amountAt baseAmount
        rw [alookup_aset_self, hE]
        dsimp only [Option.some_bind]
        rw [hup_self, hbase_a, if_pos hb]
      · unfold detailListAt baseDetails
        rw [alookup_aset_self, hE, hcd]
        dsimp only [Option.some_bind]
        rw [hap_self, hbase_d, if_pos hb]
    · rw [if_neg ht]
      have hcd : callDetails item ps = [] := by
        simp only [callDetails]
        rw [if_neg ht]
      refine ⟨_, rfl, ?_, ?_, ?_, ?_, ?_⟩
      · intro k e' hk
        by_cases hkK : k = callKey item ps
        · subst hkK
          rw [alookup_aset_self] at hk
          cases hk
          constructor
          · rw [hup_fst]; exact hinit_a
          · exact hinit_d
        · rw [alookup_aset_ne _ _ _ _ hkK] at hk
          exact hwf _ _ hk
      · intro k
        by_cases hkK : k = callKey item ps
        · subst hkK
          rw [alookup_aset_self]
          simp
        · rw [alookup_aset_ne _ _ _ _ hkK]
          simp [hkK]
      · intro k b hkK
        unfold amountAt detailListAt
        rw [alookup_aset_ne _ _ _ _ hkK]
        exact ⟨rfl, rfl⟩
      · intro b hbB
        unfold amountAt detailListAt baseAmount baseDetails
        rw [alookup_aset_self, hE]
        constructor
        · dsimp only [Option.some_bind]
          rw [hup_ne b hbB, hbase_a b]
        · dsimp only [Option.some_bind]
          rw [hbase_d b]
      · constructor
        · unfold amountAt baseAmount
          rw [alookup_aset_self, hE]
          dsimp only [Option.some_bind]
          rw [hup_self, hbase_a, if_pos hb]
        · unfold detailListAt baseDetails
          rw [alookup_aset_self, hE, hcd]
          dsimp only [Option.some_bind]
          rw [hbase_d, if_pos hb]
          simp

theorem reportEq_refl (r : Report) : ReportEq r r :=
  ⟨fun _ => Iff.rfl, fun _ _ => rfl, fun _ _ => rfl⟩

theorem reportEq_trans {r₁ r₂ r₃ : Report} (h1 : ReportEq r₁ r₂) (h2 : ReportEq r₂ r₃) :
    ReportEq r₁ r₃ :=
  ⟨fun k => (h1.1 k).trans (h2.1 k),
   fun k b => (h1.2.1 k b).trans (h2.2.1 k b),
   fun k b => (h1.2.2 k b).trans (h2.2.2 k b)⟩

theorem optReportEq_trans {names : List String} {o₁ o₂ o₃ : Option Report}
    (h1 : OptReportEq names o₁ o₂) (h2 : OptReportEq names o₂ o₃) :
    OptReportEq names o₁ o₃ := by
  rcases h1 with ⟨hn1, hn2⟩ | ⟨s₁, s₂, hs1, hs2, w1, w2, he⟩
  · rcases h2 with ⟨hm2, hm3⟩ | ⟨t₂, t₃, ht2, ht3, _, _, _⟩
    · exact Or.inl ⟨hn1, hm3⟩
    · rw [hn2] at ht2; cases ht2
  · rcases h2 with ⟨hm2, hm3⟩ | ⟨t₂, t₃, ht2, ht3, w2', w3, he'⟩
    · rw [hs2] at hm2; cases hm2
    · rw [hs2] at ht2
      cases ht2
      exact Or.inr ⟨s₁, t₃, hs1, ht3, w1, w3, reportEq_trans he he'⟩

theorem process_WF (names : List String) (item : Item) (ps : ProcParams)
    (hns : ps.bucket_names = names) (r s : Report) (hwf : ReportWF names r)
    (h : process_financial_item item ps r = some s) : ReportWF names s := by
  by_cases hsk : callSkips item ps
  · rw [process_skips item ps r hsk] at h
    cases h
    exact hwf
  · by_cases hb : callBucket item ps ∈ names
    · obtain ⟨s', hs', hwf', -⟩ := process_succeeds names item ps hns r hwf hsk hb
      rw [hs'] at h
      cases h
      exact hwf'
    · rw [process_fails names item ps hns r hwf hsk hb] at h
      cases h

theorem process_none_iff (names : List String) (item : Item) (ps : ProcParams)
    (hns : ps.bucket_names = names) (r : Report) (hwf : ReportWF names r) :
    process_financial_item item ps r = none ↔
      (¬ callSkips item ps ∧ callBucket item ps ∉ names) := by
  constructor
  · intro h
    by_cases hsk : callSkips item ps
    · rw [process_skips item ps r hsk] at h
      cases h
    · by_cases hb : callBucket item ps ∈ names
      · obtain ⟨s', hs', -⟩ := process_succeeds names item ps hns r hwf hsk hb
        rw [hs'] at h
        cases h
      · exact ⟨hsk, hb⟩
  · rintro ⟨hsk, hb⟩
    exact process_fails names item ps hns r hwf hsk hb

theorem baseAmount_of_isSome (names : List String) (r : Report) (k b : String)
    (h : (alookup k r).isSome = true) : baseAmount names r k b = amountAt r k b := by
  unfold baseAmount amountAt
  cases hk : alookup k r with
  | some e => rfl
  | none => rw [hk] at h; cases h

theorem baseDetails_of_isSome (names : List String) (r : Report) (k b : String)
    (h : (alookup k r).isSome = true) : baseDetails names r k b = detailListAt r k b := by
  unfold baseDetails detailListAt
  cases hk : alookup k r with
  | some e => rfl
  | none => rw [hk] at h; cases h

theorem baseAmount_of_none (names : List String) (r : Report) (k b : String)
    (h : ¬ (alookup k r).isSome = true) :
    baseAmount names r k b = (if b ∈ names then some 0 else none) := by
  unfold baseAmount
  cases hk : alookup k r with
  | some e => rw [hk] at h; simp at h
  | none => rfl

theorem baseDetails_of_none (names : List String) (r : Report) (k b : String)
    (h : ¬ (alookup k r).isSome = true) :
    baseDetails names r k b = (if b ∈ names then some [] else none) := by
  unfold baseDetails
  cases hk : alookup k r with
  | some e => rw [hk] at h; simp at h
  | none => rfl

theorem baseAmount_ext (names : List String) (r r' : Report) (k b : String)
    (hex : (alookup k r').isSome = true ↔ (alookup k r).isSome = true)
    (ham : amountAt r' k b = amountAt r k b) :
    baseAmount names r' k b = baseAmount names r k b := by
  by_cases h : (alookup k r).isSome = true
  · rw [baseAmount_of_isSome names r k b h, baseAmount_of_isSome names r' k b (hex.mpr h), ham]
  · rw [baseAmount_of_none names r k b h, baseAmount_of_none names r' k b (fun hc => h (hex.mp hc))]

theorem baseDetails_ext (names : List String) (r r' : Report) (k b : String)
    (hex : (alookup k r').isSome = true ↔ (alookup k r).isSome = true)
    (hdm : (detailListAt r' k b).map (fun l => (l : Multiset Detail)) =
      (detailListAt r k b).map (fun l => (l : Multiset Detail))) :
    (baseDetails names r' k b).map (fun l => (l : Multiset Detail)) =
      (baseDetails names r k b).map (fun l => (l : Multiset Detail)) := by
  by_cases h : (alookup k r).isSome = true
  · rw [baseDetails_of_isSome names r k b h, baseDetails_of_isSome names r' k b (hex.mpr h), hdm]
  · rw [baseDetails_of_none names r k b h,
      baseDetails_of_none names r' k b (fun hc => h (hex.mp hc))]

theorem optMultiset_append_cong (o₁ o₂ : Option (List Detail)) (cd : List Detail)
    (h : o₁.map (fun l => (l : Multiset Detail)) = o₂.map (fun l => (l : Multiset Detail))) :
    (o₁.map (fun l => l ++ cd)).map (fun l => (l : Multiset Detail)) =
      (o₂.map (fun l => l ++ cd)).map (fun l => (l : Multiset Detail)) := by
  cases o₁ with
  | none =>
    cases o₂ with
    | none => rfl
    | some l₂ => simp at h
  | some l₁ =>
    cases o₂ with
    | none => simp at h
    | some l₂ =>
      have hl : (l₁ : Multiset Detail) = (l₂ : Multiset Detail) := by simpa using h
      have hp : (l₁ ++ cd).Perm (l₂ ++ cd) :=
        (Multiset.coe_eq_coe.mp hl).append_right cd
      simpa using Multiset.coe_eq_coe.mpr hp

theorem process_cong (names : List String) (item : Item) (ps : ProcParams)
    (hns : ps.bucket_names = names) (r₁ r₂ : Report)
    (h1 : ReportWF names r₁) (h2 : ReportWF names r₂) (he : ReportEq r₁ r₂) :
    OptReportEq names (process_financial_item item ps r₁)
      (process_financial_item item ps r₂) := by
  by_cases hsk : callSkips item ps
  · exact Or.inr ⟨r₁, r₂, process_skips item ps r₁ hsk, process_skips item ps r₂ hsk,
      h1, h2, he⟩
  · by_cases hb : callBucket item ps ∈ names
    · obtain ⟨s₁, e1, w1, ex1, un1, nb1, ab1, db1⟩ :=
        process_succeeds names item ps hns r₁ h1 hsk hb
      obtain ⟨s₂, e2, w2, ex2, un2, nb2, ab2, db2⟩ :=
        process_succeeds names item ps hns r₂ h2 hsk hb
      refine Or.inr ⟨s₁, s₂, e1, e2, w1, w2, ?_, ?_, ?_⟩
      · intro k
        rw [ex1 k, ex2 k, he.1 k]
      · intro k b
        by_cases hk : k = callKey item ps
        · subst hk
          by_cases hbB : b = callBucket item ps
          · subst hbB
            rw [ab1, ab2,
              baseAmount_ext names r₂ r₁ _ _ (he.1 _) (he.2.1 _ _)]
          · rw [(nb1 b hbB).1, (nb2 b hbB).1,
              baseAmount_ext names r₂ r₁ _ _ (he.1 _) (he.2.1 _ _)]
        · rw [(un1 k b hk).1, (un2 k b hk).1]
          exact he.2.1 k b
      · intro k b
        by_cases hk : k = callKey item ps
        · subst hk
          by_cases hbB : b = callBucket item ps
          · subst hbB
            rw [db1, db2]
            exact optMultiset_append_cong _ _ _
              (baseDetails_ext names r₂ r₁ _ _ (he.1 _) (he.2.2 _ _))
          · rw [(nb1 b hbB).2, (nb2 b hbB).2]
            exact baseDetails_ext names r₂ r₁ _ _ (he.1 _) (he.2.2 _ _)
        · rw [(un1 k b hk).2, (un2 k b hk).2]
          exact he.2.2 k b
    · rw [process_fails names item ps hns r₁ h1 hsk hb,
        process_fails names item ps hns r₂ h2 hsk hb]
      exact Or.inl ⟨rfl, rfl⟩

theorem processAll_cong (names : List String) (l : List (Item × ProcParams))
    (hl : ∀ c ∈ l, (c.2).bucket_names = names) (r₁ r₂ : Report)
    (h1 : ReportWF names r₁) (h2 : ReportWF names r₂) (he : ReportEq r₁ r₂) :
    OptReportEq names (processAll l r₁) (processAll l r₂) := by
  induction l generalizing r₁ r₂ with
  | nil => exact Or.inr ⟨r₁, r₂, rfl, rfl, h1, h2, he⟩
  | cons c rest ih =>
    have hc := hl c (List.mem_cons_self c rest)
    rcases process_cong names c.1 c.2 hc r₁ r₂ h1 h2 he with
      ⟨hn1, hn2⟩ | ⟨s₁, s₂, hs1, hs2, w1, w2, he'⟩
    · left
      simp [processAll, hn1, hn2]
    · simp only [processAll, hs1, hs2, Option.some_bind]
      exact ih (fun c' hc' => hl c' (List.mem_cons_of_mem c hc')) s₁ s₂ w1 w2 he'

theorem baseDetails_ext_list (names : List String) (r r' : Report) (k b : String)
    (hex : (alookup k r').isSome = true ↔ (alookup k r).isSome = true)
    (hdl : detailListAt r' k b = detailListAt r k b) :
    baseDetails names r' k b = baseDetails names r k b := by
  by_cases h : (alookup k r).isSome = true
  · rw [baseDetails_of_isSome names r k b h, baseDetails_of_isSome names r' k b (hex.mpr h), hdl]
  · rw [baseDetails_of_none names r k b h,
      baseDetails_of_none names r' k b (fun hc => h (hex.mp hc))]

theorem append_append_perm (l ca cb : List Detail) :
    ((l ++ ca) ++ cb).Perm ((l ++ cb) ++ ca) := by
  rw [List.append_assoc, List.append_assoc]
  exact List.Perm.append_left l List.perm_append_comm

theorem twoStepAmt_comm (names : List String) (r : Report) (Ka Ba : String) (va : ℚ)
    (Kb Bb : String) (vb : ℚ) (k bq : String) :
    twoStepAmt names r Ka Ba va Kb Bb vb k bq =
      twoStepAmt names r Kb Bb vb Ka Ba va k bq := by
  simp only [twoStepAmt]
  split_ifs <;>
    first
    | rfl
    | tauto
    | (cases hO : baseAmount names r k bq <;> simp <;> ring)

theorem twoStepDet_comm (names : List String) (r : Report) (Ka Ba : String)
    (ca : List Detail) (Kb Bb : String) (cb : List Detail) (k bq : String) :
    (twoStepDet names r Ka Ba ca Kb Bb cb k bq).map (fun l => (l : Multiset Detail)) =
      (twoStepDet names r Kb Bb cb Ka Ba ca k bq).map (fun l => (l : Multiset Detail)) := by
  simp only [twoStepDet]
  split_ifs <;>
    first
    | rfl
    | tauto
    | (cases hO : baseDetails names r k bq with
       | none => rfl
       | some l =>
         show some (((l ++ ca) ++ cb : List Detail) : Multiset Detail) =
           some (((l ++ cb) ++ ca : List Detail) : Multiset Detail)
         exact congrArg some (Multiset.coe_eq_coe.mpr (append_append_perm l ca cb)))

theorem process_swap (names : List String) (ia : Item) (pa : ProcParams)
    (ib : Item) (pb : ProcParams)
    (hna : pa.bucket_names = names) (hnb : pb.bucket_names = names)
    (r : Report) (hwf : ReportWF names r) :
    OptReportEq names
      ((process_financial_item ia pa r).bind (process_financial_item ib pb))
      ((process_financial_item ib pb r).bind (process_financial_item ia pa)) := by
  by_cases hska : callSkips ia pa
  · rw [process_skips ia pa r hska]
    simp only [Option.some_bind]
    cases hpb : process_financial_item ib pb r with
    | none => exact Or.inl ⟨rfl, rfl⟩
    | some s =>
      have ws : ReportWF names s := process_WF names ib pb hnb r s hwf hpb
      simp only [Option.some_bind]
      rw [process_skips ia pa s hska]
      exact Or.inr ⟨s, s, rfl, rfl, ws, ws, reportEq_refl s⟩
  · by_cases hskb : callSkips ib pb
    · rw [process_skips ib pb r hskb]
      simp only [Option.some_bind]
      cases hpa : process_financial_item ia pa r with
      | none => exact Or.inl ⟨rfl, rfl⟩
      | some s =>
        have ws : ReportWF names s := process_WF names ia pa hna r s hwf hpa
        simp only [Option.some_bind]
        rw [process_skips ib pb s hskb]
        exact Or.inr ⟨s, s, rfl, rfl, ws, ws, reportEq_refl s⟩
    · by_cases hba : callBucket ia pa ∈ names
      · by_cases hbb : callBucket ib pb ∈ names
        · obtain ⟨s₁, ea1, ws₁, exa, una, nba, aba, dba⟩ :=
            process_succeeds names ia pa hna r hwf hska hba
          obtain ⟨t₁, eb1, wt₁, exb', unb', nbb', abb', dbb'⟩ :=
            process_succeeds names ib pb hnb s₁ ws₁ hskb hbb
          obtain ⟨s₂, eb2, ws₂, exb, unb, nbb, abb, dbb⟩ :=
            process_succeeds names ib pb hnb r hwf hskb hbb
          obtain ⟨t₂, ea2, wt₂, exa', una', nba', aba', dba'⟩ :=
            process_succeeds names ia pa hna s₂ ws₂ hska hba
          have base_s₁ : ∀ k bq, baseAmount names s₁ k bq =
              (if k = callKey ia pa then
                (if bq = callBucket ia pa then
                  (baseAmount names r k bq).map (fun q => q + callSigned ia pa)
                 else baseAmount names r k bq)
               else baseAmount names r k bq) := by
            intro k bq
            by_cases hk : k = callKey ia pa
            · subst hk
              rw [if_pos rfl,
                baseAmount_of_isSome names s₁ _ _ ((exa _).mpr (Or.inl rfl))]
              by_cases hq : bq = callBucket ia pa
              · rw [if_pos hq, hq]
                exact aba
              · rw [if_neg hq]
                exact (nba bq hq).1
            · rw [if_neg hk]
              refine baseAmount_ext names r s₁ k bq ?_ (una k bq hk).1
              rw [exa k]
              constructor
              · rintro (h | h)
                · exact absurd h hk
                · exact h
              · exact Or.inr
          have based_s₁ : ∀ k bq, baseDetails names s₁ k bq =
              (if k = callKey ia pa then
                (if bq = callBucket ia pa then
                  (baseDetails names r k bq).map (fun l => l ++ callDetails ia pa)
                 else baseDetails names r k bq)
               else baseDetails names r k bq) := by
            intro k bq
            by_cases hk : k = callKey ia pa
            · subst hk
              rw [if_pos rfl,
                baseDetails_of_isSome names s₁ _ _ ((exa _).mpr (Or.inl rfl))]
              by_cases hq : bq = callBucket ia pa
              · rw [if_pos hq, hq]
                exact dba
              · rw [if_neg hq]
                exact (nba bq hq).2
            · rw [if_neg hk]
              refine baseDetails_ext_list names r s₁ k bq ?_ (una k bq hk).2
              rw [exa k]
              constructor
              · rintro (h | h)
                · exact absurd h hk
                · exact h
              · exact Or.inr
          have base_s₂ : ∀ k bq, baseAmount names s₂ k bq =
              (if k = callKey ib pb then
                (if bq = callBucket ib pb then
                  (baseAmount names r k bq).map (fun q => q + callSigned ib pb)
                 else baseAmount names r k bq)
               else baseAmount names r k bq) := by
            intro k bq
            by_cases hk : k = callKey ib pb
            · subst hk
              rw [if_pos rfl,
                baseAmount_of_isSome names s₂ _ _ ((exb _).mpr (Or.inl rfl))]
              by_cases hq : bq = callBucket ib pb
              · rw [if_pos hq, hq]
                exact abb
              · rw [if_neg hq]
                exact (nbb bq hq).1
            · rw [if_neg hk]
              refine baseAmount_ext names r s₂ k bq ?_ (unb k bq hk).1
              rw [exb k]
              constructor
              · rintro (h | h)
                · exact absurd h hk
                · exact h
              · exact Or.inr
          have based_s₂ : ∀ k bq, baseDetails names s₂ k bq =
              (if k = callKey ib pb then
                (if bq = callBucket ib pb then
                  (baseDetails names r k bq).map (fun l => l ++ callDetails ib pb)
                 else baseDetails names r k bq)
               else baseDetails names r k bq) := by
            intro k bq
            by_cases hk : k = callKey ib pb
            · subst hk
              rw [if_pos rfl,
                baseDetails_of_isSome names s₂ _ _ ((exb _).mpr (Or.inl rfl))]
              by_cases hq : bq = callBucket ib pb
              · rw [if_pos hq, hq]
                exact dbb
              · rw [if_neg hq]
                exact (nbb bq hq).2
            · rw [if_neg hk]
              refine baseDetails_ext_list names r s₂ k bq ?_ (unb k bq hk).2
              rw [exb k]
              constructor
              · rintro (h | h)
                · exact absurd h hk
                · exact h
              · exact Or.inr
          have A1 : ∀ k bq, amountAt t₁ k bq =
              twoStepAmt names r (callKey ia pa) (callBucket ia pa) (callSigned ia pa)
                (callKey ib pb) (callBucket ib pb) (callSigned ib pb) k bq := by
            intro k bq
            simp only [twoStepAmt]
            have hbase1 : (if k = callKey ia pa ∧ bq = callBucket ia pa then
                (baseAmount names r k bq).map (fun q => q + callSigned ia pa)
              else baseAmount names r k bq) = baseAmount names s₁ k bq := by
              rw [base_s₁ k bq]
              by_cases hka : k = callKey ia pa
              · by_cases hqa : bq = callBucket ia pa
                · rw [if_pos ⟨hka, hqa⟩, if_pos hka, if_pos hqa]
                · rw [if_neg (by tauto), if_pos hka, if_neg hqa]
              · rw [if_neg (by tauto), if_neg hka]
            rw [hbase1]
            by_cases hkb : k = callKey ib pb
            · rw [if_pos hkb]
              by_cases hqb : bq = callBucket ib pb
              · rw [if_pos hqb, hkb, hqb]
                exact abb'
              · rw [if_neg hqb, hkb]
                exact (nbb' bq hqb).1
            · rw [if_neg hkb, (unb' k bq hkb).1]
              by_cases hka : k = callKey ia pa
              · rw [if_pos hka]
                by_cases hqa : bq = callBucket ia pa
                · rw [if_pos hqa, hka, hqa]
                  exact aba
                · rw [if_neg hqa, hka]
                  exact (nba bq hqa).1
              · rw [if_neg hka]
                exact (una k bq hka).1
          have D1 : ∀ k bq, detailListAt t₁ k bq =
              twoStepDet names r (callKey ia pa) (callBucket ia pa) (callDetails ia pa)
                (callKey ib pb) (callBucket ib pb) (callDetails ib pb) k bq := by
            intro k bq
            simp only [twoStepDet]
            have hbase1 : (if k = callKey ia pa ∧ bq = callBucket ia pa then
                (baseDetails names r k bq).map (fun l => l ++ callDetails ia pa)
              else baseDetails names r k bq) = baseDetails names s₁ k bq := by
              rw [based_s₁ k bq]
              by_cases hka : k = callKey ia pa
              · by_cases hqa : bq = callBucket ia pa
                · rw [if_pos ⟨hka, hqa⟩, if_pos hka, if_pos hqa]
                · rw [if_neg (by tauto), if_pos hka, if_neg hqa]
              · rw [if_neg (by tauto), if_neg hka]
            rw [hbase1]
            by_cases hkb : k = callKey ib pb
            · rw [if_pos hkb]
              by_cases hqb : bq = callBucket ib pb
              · rw [if_pos hqb, hkb, hqb]
                exact dbb'
              · rw [if_neg hqb, hkb]
                exact (nbb' bq hqb).2
            · rw [if_neg hkb, (unb' k bq hkb).2]
              by_cases hka : k = callKey ia pa
              · rw [if_pos hka]
                by_cases hqa : bq = callBucket ia pa
                · rw [if_pos hqa, hka, hqa]
                  exact dba
                · rw [if_neg hqa, hka]
                  exact (nba bq hqa).2
              · rw [if_neg hka]
                exact (una k bq hka).2
          have A2 : ∀ k bq, amountAt t₂ k bq =
              twoStepAmt names r (callKey ib pb) (callBucket ib pb) (callSigned ib pb)
                (callKey ia pa) (callBucket ia pa) (callSigned ia pa) k bq := by
            intro k bq
            simp only [twoStepAmt]
            have hbase1 : (if k = callKey ib pb ∧ bq = callBucket ib pb then
                (baseAmount names r k bq).map (fun q => q + callSigned ib pb)
              else baseAmount names r k bq) = baseAmount names s₂ k bq := by
              rw [base_s₂ k bq]
              by_cases hkb : k = callKey ib pb
              · by_cases hqb : bq = callBucket ib pb
                · rw [if_pos ⟨hkb, hqb⟩, if_pos hkb, if_pos hqb]
                · rw [if_neg (by tauto), if_pos hkb, if_neg hqb]
              · rw [if_neg (by tauto), if_neg hkb]
            rw [hbase1]
            by_cases hka : k = callKey ia pa
            · rw [if_pos hka]
              by_cases hqa : bq = callBucket ia pa
              · rw [if_pos hqa, hka, hqa]
                exact aba'
              · rw [if_neg hqa, hka]
                exact (nba' bq hqa).1
            · rw [if_neg hka, (una' k bq hka).1]
              by_cases hkb : k = callKey ib pb
              · rw [if_pos hkb]
                by_cases hqb : bq = callBucket ib pb
                · rw [if_pos hqb, hkb, hqb]
                  exact abb
                · rw [if_neg hqb, hkb]
                  exact (nbb bq hqb).1
              · rw [if_neg hkb]
                exact (unb k bq hkb).1
          have D2 : ∀ k bq, detailListAt t₂ k bq =
              twoStepDet names r (callKey ib pb) (callBucket ib pb) (callDetails ib pb)
                (callKey ia pa) (callBucket ia pa) (callDetails ia pa) k bq := by
            intro k bq
            simp only [twoStepDet]
            have hbase1 : (if k = callKey ib pb ∧ bq = callBucket ib pb then
                (baseDetails names r k bq).map (fun l => l ++ callDetails ib pb)
              else baseDetails names r k bq) = baseDetails names s₂ k bq := by
              rw [based_s₂ k bq]
              by_cases hkb : k = callKey ib pb
              · by_cases hqb : bq = callBucket ib pb
                · rw [if_pos ⟨hkb, hqb⟩, if_pos hkb, if_pos hqb]
                · rw [if_neg (by tauto), if_pos hkb, if_neg hqb]
              · rw [if_neg (by tauto), if_neg hkb]
            rw [hbase1]
            by_cases hka : k = callKey ia pa
            · rw [if_pos hka]
              by_cases hqa : bq = callBucket ia pa
              · rw [if_pos hqa, hka, hqa]
                exact dba'
              · rw [if_neg hqa, hka]
                exact (nba' bq hqa).2
            · rw [if_neg hka, (una' k bq hka).2]
              by_cases hkb : k = callKey ib pb
              · rw [if_pos hkb]
                by_cases hqb : bq = callBucket ib pb
                · rw [if_pos hqb, hkb, hqb]
                  exact dbb
                · rw [if_neg hqb, hkb]
                  exact (nbb bq hqb).2
              · rw [if_neg hkb]
                exact (unb k bq hkb).2
          refine Or.inr ⟨t₁, t₂, ?_, ?_, wt₁, wt₂, ?_, ?_, ?_⟩
          · rw [ea1]
            simp only [Option.some_bind]
            exact eb1
          · rw [eb2]
            simp only [Option.some_bind]
            exact ea2
          · intro k
            rw [exb' k, exa k, exa' k, exb k]
            tauto
          · intro k bq
            rw [A1 k bq, A2 k bq]
            exact twoStepAmt_comm names r _ _ _ _ _ _ k bq
          · intro k bq
            rw [D1 k bq, D2 k bq]
            exact twoStepDet_comm names r _ _ _ _ _ _ k bq
        · obtain ⟨s₁, ea1, ws₁, -⟩ := process_succeeds names ia pa hna r hwf hska hba
          refine Or.inl ⟨?_, ?_⟩
          · rw [ea1]
            simp only [Option.some_bind]
            exact process_fails names ib pb hnb s₁ ws₁ hskb hbb
          · rw [process_fails names ib pb hnb r hwf hskb hbb]
            rfl
      · refine Or.inl ⟨?_, ?_⟩
        · rw [process_fails names ia pa hna r hwf hska hba]
          rfl
        · cases hpb : process_financial_item ib pb r with
          | none => rfl
          | some s =>
            simp only [Option.some_bind]
            exact process_fails names ia pa hna s
              (process_WF names ib pb hnb r s hwf hpb) hska hba

theorem processAll_perm_equiv (names : List String) :
    ∀ {l₁ l₂ : List (Item × ProcParams)}, l₁.Perm l₂ →
      (∀ c ∈ l₁, (c.2).bucket_names = names) →
      ∀ r₁ r₂ : Report, ReportWF names r₁ → ReportWF names r₂ → ReportEq r₁ r₂ →
      OptReportEq names (processAll l₁ r₁) (processAll l₂ r₂) := by
  intro l₁ l₂ hperm
  induction hperm with
  | nil =>
    intro _ r₁ r₂ h1 h2 he
    exact Or.inr ⟨r₁, r₂, rfl, rfl, h1, h2, he⟩
  | cons x p ih =>
    intro hmem r₁ r₂ h1 h2 he
    have hx := hmem x (List.mem_cons_self _ _)
    rcases process_cong names x.1 x.2 hx r₁ r₂ h1 h2 he with
      ⟨hn1, hn2⟩ | ⟨s₁, s₂, hs1, hs2, w1, w2, he'⟩
    · exact Or.inl ⟨by simp [processAll, hn1], by simp [processAll, hn2]⟩
    · simp only [processAll, hs1, hs2, Option.some_bind]
      exact ih (fun c hc => hmem c (List.mem_cons_of_mem _ hc)) s₁ s₂ w1 w2 he'
  | swap x y l =>
    intro hmem r₁ r₂ h1 h2 he
    have hx := hmem x (by simp)
    have hy := hmem y (by simp)
    have hmeml : ∀ c ∈ l, (c.2).bucket_names = names := fun c hc => hmem c (by simp [hc])
    have hassoc1 : processAll (y :: x :: l) r₁ =
        ((process_financial_item y.1 y.2 r₁).bind (process_financial_item x.1 x.2)).bind
          (processAll l) := by
      show (process_financial_item y.1 y.2 r₁).bind (processAll (x :: l)) = _
      cases process_financial_item y.1 y.2 r₁ with
      | none => rfl
      | some s => rfl
    have hassoc2 : processAll (x :: y :: l) r₂ =
        ((process_financial_item x.1 x.2 r₂).bind (process_financial_item y.1 y.2)).bind
          (processAll l) := by
      show (process_financial_item x.1 x.2 r₂).bind (processAll (y :: l)) = _
      cases process_financial_item x.1 x.2 r₂ with
      | none => rfl
      | some s => rfl
    rw [hassoc1, hassoc2]
    have hsw := process_swap names y.1 y.2 x.1 x.2 hy hx r₁ h1
    have hcong2 : OptReportEq names
        ((process_financial_item x.1 x.2 r₁).bind (process_financial_item y.1 y.2))
        ((process_financial_item x.1 x.2 r₂).bind (process_financial_item y.1 y.2)) := by
      rcases process_cong names x.1 x.2 hx r₁ r₂ h1 h2 he with
        ⟨hn1, hn2⟩ | ⟨s₁, s₂, hs1, hs2, w1, w2, he'⟩
      · rw [hn1, hn2]
        exact Or.inl ⟨rfl, rfl⟩
      · rw [hs1, hs2]
        simp only [Option.some_bind]
        exact process_cong names y.1 y.2 hy s₁ s₂ w1 w2 he'
    rcases optReportEq_trans hsw hcong2 with
      ⟨hn1, hn2⟩ | ⟨s₁, s₂, hs1, hs2, w1, w2, he'⟩
    · rw [hn1, hn2]
      exact Or.inl ⟨rfl, rfl⟩
    · rw [hs1, hs2]
      simp only [Option.some_bind]
      exact processAll_cong names l hmeml s₁ s₂ w1 w2 he'
  | trans h12 h23 ih1 ih2 =>
    intro hmem r₁ r₂ h1 h2 he
    have hmem2 := fun c hc => hmem c (h12.mem_iff.mpr hc)
    exact optReportEq_trans (ih1 hmem r₁ r₁ h1 h1 (reportEq_refl r₁))
      (ih2 hmem2 r₁ r₂ h1 h2 he)

/-- C8: aggregating a multiset of `process_financial_item` calls (all using
the same `bucket_names` configuration, as one report run does) in any two
orders either raises in both orders or produces reports with identical
per-key bucket amounts, and per-bucket item lists equal as multisets (only
their order may differ). -/
theorem c8_aggregation_order_free (names : List String)
    (l₁ l₂ : List (Item × ProcParams)) (hperm : l₁.Perm l₂)
    (hnames : ∀ c ∈ l₁, (c.2).bucket_names = names) :
    (processAll l₁ [] = none ∧ processAll l₂ [] = none) ∨
      ∃ r₁ r₂, processAll l₁ [] = some r₁ ∧ processAll l₂ [] = some r₂ ∧
        (∀ key bucket, amountAt r₁ key bucket = amountAt r₂ key bucket) ∧
        (∀ key bucket,
          (detailListAt r₁ key bucket).map (fun l => (l : Multiset Detail)) =
            (detailListAt r₂ key bucket).map (fun l => (l : Multiset Detail))) := by
  have hwfe : ReportWF names [] := by
    intro k e hk
    simp [alookup] at hk
  rcases processAll_perm_equiv names hperm hnames [] [] hwfe hwfe (reportEq_refl []) with
    ⟨hn1, hn2⟩ | ⟨r₁, r₂, hs1, hs2, -, -, he⟩
  · exact Or.inl ⟨hn1, hn2⟩
  · exact Or.inr ⟨r₁, r₂, hs1, hs2, he.2.1, he.2.2⟩

/-- C8 (witness): the commutativity theorem applied to two concrete calls
in both orders. -/
theorem c8_witness :
    (processAll [c8_call_a, c8_call_b] [] = none ∧
      processAll [c8_call_b, c8_call_a] [] = none) ∨
      ∃ r₁ r₂, processAll [c8_call_a, c8_call_b] [] = some r₁ ∧
        processAll [c8_call_b, c8_call_a] [] = some r₂ ∧
        (∀ key bucket, amountAt r₁ key bucket = amountAt r₂ key bucket) ∧
        (∀ key bucket,
          (detailListAt r₁ key bucket).map (fun l => (l : Multiset Detail)) =
            (detailListAt r₂ key bucket).map (fun l => (l : Multiset Detail))) :=
  c8_aggregation_order_free (generate_bucket_names 4 "Month" true)
    [c8_call_a, c8_call_b] [c8_call_b, c8_call_a]
    (List.Perm.swap c8_call_b c8_call_a [])
    (by
      intro c hc
      simp only [List.mem_cons, List.not_mem_nil, or_false] at hc
      rcases hc with rfl | rfl <;> rfl)
